import Mathlib

/-!
Shallow embedding of the open-meteo-exporter scrape-and-cache collector
(src/internal/exporter.go, src/internal/handler.go, src/types/types.go).

JSON numbers are modelled as rationals.  `encoding/json` unmarshalling into
the two response structs is modelled field by field, following the struct
tags of src/types/types.go (a number overwrites the field, `null` is a
no-op for a value field and stores "absent" for a pointer field, any other
JSON value is a type error, unknown keys are ignored, keys match struct
fields case-insensitively).  An HTTP fetch is modelled by an oracle that
yields each target's outcome; the outcome of a completed request carries
the status code (present on the Go response value even though the handlers
never read it), the body parsed as JSON (`none` for bytes that are not
well-formed JSON) and the byte length of the body.  A handler returns
`Option ExporterState`: `none` models the panic of the interface type
assertion on the cache-hit path (`last.Response.(*types.Response)` /
`entry.Response.(*types.ResponseAlt)`).  `netRequests` is a ghost counter
of calls to `e.client.Do`, per target name.  The latency summary
`httpFetchDuration` (observed once per cycle) and the emission of samples
into the prometheus channel are not modelled; they carry no decision
logic.  `time.Now()` is modelled by a single integer (Unix seconds)
parameter per collect cycle.
-/

namespace OpenMeteo

/-- JSON values; numbers are rationals. -/
inductive Json where
  | num (v : ℚ)
  | str (v : String)
  | bool (v : Bool)
  | null
  | arr (items : List Json)
  | obj (fields : List (String × Json))

/-- ASCII lower-casing of one character (all keys involved are ASCII). -/
def charToLower (c : Char) : Char :=
  if 65 ≤ c.toNat ∧ c.toNat ≤ 90 then Char.ofNat (c.toNat + 32) else c

/-- Case-insensitive key comparison, as `encoding/json` matches object keys
to struct fields and tags. -/
def eqCI (a b : String) : Bool :=
  a.data.map charToLower == b.data.map charToLower

/-- Unmarshal a JSON value into a Go `float64` field currently holding
`cur`: a number overwrites, `null` is a no-op, anything else is a type
error. -/
def decNum (cur : ℚ) : Json → Option ℚ
  | .num v => some v
  | .null => some cur
  | _ => none

/-- Unmarshal a JSON value into a Go `*float64` field: a number is stored,
`null` stores nil (absent), anything else is a type error. -/
def decOptNum : Json → Option (Option ℚ)
  | .num v => some (some v)
  | .null => some none
  | _ => none

/-- types.CurrentWeatherDefault (src/types/types.go). -/
structure CurrentWeatherDefault where
  Temperature : ℚ
  WindSpeed : ℚ
  WindDirection : ℚ
deriving DecidableEq

/-- types.CurrentWeatherAlt (src/types/types.go); every field is a
`*float64`, i.e. optional. -/
structure CurrentWeatherAlt where
  Temperature : Option ℚ
  ApparentTemperature : Option ℚ
  RelativeHumidity : Option ℚ
  Precipitation : Option ℚ
  Rain : Option ℚ
  Showers : Option ℚ
  Snowfall : Option ℚ
  CloudCover : Option ℚ
  SurfacePressure : Option ℚ
  PressureMsl : Option ℚ
  WindSpeed : Option ℚ
  WindDirection : Option ℚ
  WindGusts : Option ℚ
  WeatherCode : Option ℚ
deriving DecidableEq

/-- types.Response: embedded Coordinates plus `current_weather`. -/
structure Response where
  Latitude : ℚ
  Longitude : ℚ
  CurrentWeather : CurrentWeatherDefault
deriving DecidableEq

/-- types.ResponseAlt: embedded Coordinates plus `current`. -/
structure ResponseAlt where
  Latitude : ℚ
  Longitude : ℚ
  CurrentWeather : CurrentWeatherAlt
deriving DecidableEq

def zeroCWD : CurrentWeatherDefault := ⟨0, 0, 0⟩

def zeroCWA : CurrentWeatherAlt :=
  ⟨none, none, none, none, none, none, none, none, none, none, none, none, none, none⟩

def zeroResponse : Response := ⟨0, 0, zeroCWD⟩

def zeroResponseAlt : ResponseAlt := ⟨0, 0, zeroCWA⟩

/-- One key/value pair applied to a CurrentWeatherDefault being decoded;
tags: `windspeed`, `winddirection`; `Temperature` has no tag. -/
def decodeCWDField (c : CurrentWeatherDefault) (k : String) (v : Json) :
    Option CurrentWeatherDefault :=
  if eqCI k "temperature" then (decNum c.Temperature v).map fun x => { c with Temperature := x }
  else if eqCI k "windspeed" then (decNum c.WindSpeed v).map fun x => { c with WindSpeed := x }
  else if eqCI k "winddirection" then
    (decNum c.WindDirection v).map fun x => { c with WindDirection := x }
  else some c

def decodeCWDObj : CurrentWeatherDefault → List (String × Json) → Option CurrentWeatherDefault
  | c, [] => some c
  | c, (k, v) :: rest => (decodeCWDField c k v).bind fun c2 => decodeCWDObj c2 rest

def decodeCWDInto (c : CurrentWeatherDefault) : Json → Option CurrentWeatherDefault
  | .obj fs => decodeCWDObj c fs
  | .null => some c
  | _ => none

/-- One key/value pair applied to a CurrentWeatherAlt being decoded; all
fields carry explicit json tags (src/types/types.go). -/
def decodeCWAField (c : CurrentWeatherAlt) (k : String) (v : Json) : Option CurrentWeatherAlt :=
  if eqCI k "temperature_2m" then (decOptNum v).map fun x => { c with Temperature := x }
  else if eqCI k "apparent_temperature" then
    (decOptNum v).map fun x => { c with ApparentTemperature := x }
  else if eqCI k "relative_humidity_2m" then
    (decOptNum v).map fun x => { c with RelativeHumidity := x }
  else if eqCI k "precipitation" then (decOptNum v).map fun x => { c with Precipitation := x }
  else if eqCI k "rain" then (decOptNum v).map fun x => { c with Rain := x }
  else if eqCI k "showers" then (decOptNum v).map fun x => { c with Showers := x }
  else if eqCI k "snowfall" then (decOptNum v).map fun x => { c with Snowfall := x }
  else if eqCI k "cloud_cover" then (decOptNum v).map fun x => { c with CloudCover := x }
  else if eqCI k "surface_pressure" then
    (decOptNum v).map fun x => { c with SurfacePressure := x }
  else if eqCI k "pressure_msl" then (decOptNum v).map fun x => { c with PressureMsl := x }
  else if eqCI k "wind_speed_10m" then (decOptNum v).map fun x => { c with WindSpeed := x }
  else if eqCI k "wind_direction_10m" then
    (decOptNum v).map fun x => { c with WindDirection := x }
  else if eqCI k "wind_gusts_10m" then (decOptNum v).map fun x => { c with WindGusts := x }
  else if eqCI k "weather_code" then (decOptNum v).map fun x => { c with WeatherCode := x }
  else some c

def decodeCWAObj : CurrentWeatherAlt → List (String × Json) → Option CurrentWeatherAlt
  | c, [] => some c
  | c, (k, v) :: rest => (decodeCWAField c k v).bind fun c2 => decodeCWAObj c2 rest

def decodeCWAInto (c : CurrentWeatherAlt) : Json → Option CurrentWeatherAlt
  | .obj fs => decodeCWAObj c fs
  | .null => some c
  | _ => none

/-- One key/value pair applied to a Response being decoded: promoted
Coordinates fields plus the tagged `current_weather` sub-struct. -/
def decodeResponseField (r : Response) (k : String) (v : Json) : Option Response :=
  if eqCI k "latitude" then (decNum r.Latitude v).map fun x => { r with Latitude := x }
  else if eqCI k "longitude" then (decNum r.Longitude v).map fun x => { r with Longitude := x }
  else if eqCI k "current_weather" then
    (decodeCWDInto r.CurrentWeather v).map fun c => { r with CurrentWeather := c }
  else some r

def decodeResponseObj : Response → List (String × Json) → Option Response
  | r, [] => some r
  | r, (k, v) :: rest => (decodeResponseField r k v).bind fun r2 => decodeResponseObj r2 rest

/-- `json.Unmarshal(data, &respObj)` for `var respObj types.Response`:
starts from the zero value; a non-object, non-null document is a type
error. -/
def decodeResponse : Json → Option Response
  | .obj fs => decodeResponseObj zeroResponse fs
  | .null => some zeroResponse
  | _ => none

def decodeResponseAltField (r : ResponseAlt) (k : String) (v : Json) : Option ResponseAlt :=
  if eqCI k "latitude" then (decNum r.Latitude v).map fun x => { r with Latitude := x }
  else if eqCI k "longitude" then (decNum r.Longitude v).map fun x => { r with Longitude := x }
  else if eqCI k "current" then
    (decodeCWAInto r.CurrentWeather v).map fun c => { r with CurrentWeather := c }
  else some r

def decodeResponseAltObj : ResponseAlt → List (String × Json) → Option ResponseAlt
  | r, [] => some r
  | r, (k, v) :: rest => (decodeResponseAltField r k v).bind fun r2 => decodeResponseAltObj r2 rest

/-- `json.Unmarshal(data, &respObj)` for `var respObj types.ResponseAlt`. -/
def decodeResponseAlt : Json → Option ResponseAlt
  | .obj fs => decodeResponseAltObj zeroResponseAlt fs
  | .null => some zeroResponseAlt
  | _ => none

/-- types.FetchMethod constants. -/
def FetchMethodDefault : String := "default"

def FetchMethodAlt : String := "alt"

/-- types.Location: a configured target.  `FetchMethod` is a `*FetchMethod`
in Go, hence `Option`. -/
structure Location where
  Name : String
  FetchMethod : Option String
  TtlMinutes : ℤ
  Latitude : ℚ
  Longitude : ℚ

/-- The response stored in a cache entry: the Go code stores an
`interface{}` holding either a `*types.Response` or a `*types.ResponseAlt`,
modelled as a sum. -/
inductive CachedResponse where
  | defaultResp (r : Response)
  | altResp (r : ResponseAlt)
deriving DecidableEq

/-- types.CacheEntry. -/
structure CacheEntry where
  Response : CachedResponse
  LastUpdate : ℤ
deriving DecidableEq

/-- The thirteen GaugeVec fields of the exporter struct
(src/internal/exporter.go), each labeled by location name. -/
inductive Gauge where
  | temp
  | tempApparent
  | relHumidity
  | precip
  | rain
  | showers
  | snowfall
  | cloudCover
  | surfacePressure
  | pressureMsl
  | windSpeed
  | windDir
  | windGusts
deriving DecidableEq

/-- The mutable state of the exporter: the gauge vectors (none = that
labeled series was never set), the counters and the cache.  `netRequests`
is a ghost counter of `e.client.Do` calls per target name. -/
structure ExporterState where
  gauges : Gauge × String → Option ℚ
  cacheHit : String → ℕ
  totalScrapes : ℕ
  scrapeErrors : ℕ
  httpTraffic : ℕ
  netRequests : String → ℕ
  cache : String → Option CacheEntry

/-- The state created by internal.NewExporter: empty cache, zeroed
counters, no gauge series set. -/
def initState : ExporterState :=
  ⟨fun _ => none, fun _ => 0, 0, 0, 0, fun _ => 0, fun _ => none⟩

/-- The outcome of one attempted HTTP fetch: `client.Do` error, body-read
error, or a completed request carrying the status code, the body parsed as
JSON (`none` when the bytes are not well-formed JSON) and the body's byte
length. -/
inductive FetchOutcome where
  | transportError
  | readError
  | ok (status : ℕ) (body : Option Json) (len : ℕ)

def Oracle := Location → FetchOutcome

/-- `e.onError`: log (not modelled) and increment the scrape-error
counter. -/
def onError (s : ExporterState) : ExporterState :=
  { s with scrapeErrors := s.scrapeErrors + 1 }

def bumpHit (s : ExporterState) (n : String) : ExporterState :=
  { s with cacheHit := Function.update s.cacheHit n (s.cacheHit n + 1) }

def bumpNet (s : ExporterState) (n : String) : ExporterState :=
  { s with netRequests := Function.update s.netRequests n (s.netRequests n + 1) }

def addTraffic (s : ExporterState) (len : ℕ) : ExporterState :=
  { s with httpTraffic := s.httpTraffic + len }

def writeCache (s : ExporterState) (n : String) (resp : CachedResponse) (now : ℤ) :
    ExporterState :=
  { s with cache := Function.update s.cache n (some ⟨resp, now⟩) }

/-- `if loc.TtlMinutes == 0 { loc.TtlMinutes = 10 }` at the top of both
handlers. -/
def Location.effTtl (loc : Location) : ℤ :=
  if loc.TtlMinutes = 0 then 10 else loc.TtlMinutes

/-- `gaugeVec.WithLabelValues(n).Set(v)`: overwrite one labeled series. -/
def setGauge (G : Gauge × String → Option ℚ) (g : Gauge) (n : String) (v : ℚ) :
    Gauge × String → Option ℚ :=
  Function.update G (g, n) (some v)

/-- The three unconditional gauge writes at the end of handleDefault. -/
def setDefaultGauges (s : ExporterState) (n : String) (r : Response) : ExporterState :=
  { s with gauges :=
      (setGauge (setGauge (setGauge s.gauges
        Gauge.temp n r.CurrentWeather.Temperature)
        Gauge.windSpeed n r.CurrentWeather.WindSpeed)
        Gauge.windDir n r.CurrentWeather.WindDirection) }

/-- `if respObj.CurrentWeather.X != nil { gauge.Set(*...) }`: set the
labeled gauge only when the optional field is present. -/
def setOpt (G : Gauge × String → Option ℚ) (g : Gauge) (n : String) :
    Option ℚ → (Gauge × String → Option ℚ)
  | some v => Function.update G (g, n) (some v)
  | none => G

/-- The thirteen conditional gauge writes at the end of handleAlt. -/
def setAltGauges (s : ExporterState) (n : String) (r : ResponseAlt) : ExporterState :=
  { s with gauges :=
      (setOpt (setOpt (setOpt (setOpt (setOpt (setOpt (setOpt (setOpt (setOpt (setOpt
        (setOpt (setOpt (setOpt s.gauges
          Gauge.temp n r.CurrentWeather.Temperature)
          Gauge.tempApparent n r.CurrentWeather.ApparentTemperature)
          Gauge.relHumidity n r.CurrentWeather.RelativeHumidity)
          Gauge.precip n r.CurrentWeather.Precipitation)
          Gauge.rain n r.CurrentWeather.Rain)
          Gauge.showers n r.CurrentWeather.Showers)
          Gauge.snowfall n r.CurrentWeather.Snowfall)
          Gauge.cloudCover n r.CurrentWeather.CloudCover)
          Gauge.surfacePressure n r.CurrentWeather.SurfacePressure)
          Gauge.pressureMsl n r.CurrentWeather.PressureMsl)
          Gauge.windSpeed n r.CurrentWeather.WindSpeed)
          Gauge.windDir n r.CurrentWeather.WindDirection)
          Gauge.windGusts n r.CurrentWeather.WindGusts) }

/-- The fetch branch of handleDefault: client.Do, read the body, add its
length to the traffic counter, unmarshal, store into the cache.  Any error
takes the `e.onError` path and returns. -/
def fetchDefault (oc : FetchOutcome) (now : ℤ) (loc : Location) (s : ExporterState) :
    Option ExporterState :=
  let s := bumpNet s loc.Name
  match oc with
  | .transportError => some (onError s)
  | .readError => some (onError s)
  | .ok _status body len =>
      let s := addTraffic s len
      match body with
      | none => some (onError s)
      | some j =>
          match decodeResponse j with
          | none => some (onError s)
          | some r =>
              some (setDefaultGauges (writeCache s loc.Name (.defaultResp r) now) loc.Name r)

/-- internal.(*exporter).handleDefault.  The cache-hit branch increments
the per-target cache-hit counter and reuses the cached decoded response;
`none` models the panic of `last.Response.(*types.Response)` on an
alt-shaped cached value. -/
def handleDefault (oc : FetchOutcome) (now : ℤ) (loc : Location) (s : ExporterState) :
    Option ExporterState :=
  match s.cache loc.Name with
  | some last =>
      if now < loc.effTtl * 60 + last.LastUpdate then
        match last.Response with
        | .defaultResp r => some (setDefaultGauges (bumpHit s loc.Name) loc.Name r)
        | .altResp _ => none
      else fetchDefault oc now loc s
  | none => fetchDefault oc now loc s

/-- The fetch branch of handleAlt. -/
def fetchAlt (oc : FetchOutcome) (now : ℤ) (loc : Location) (s : ExporterState) :
    Option ExporterState :=
  let s := bumpNet s loc.Name
  match oc with
  | .transportError => some (onError s)
  | .readError => some (onError s)
  | .ok _status body len =>
      let s := addTraffic s len
      match body with
      | none => some (onError s)
      | some j =>
          match decodeResponseAlt j with
          | none => some (onError s)
          | some r =>
              some (setAltGauges (writeCache s loc.Name (.altResp r) now) loc.Name r)

/-- internal.(*exporter).handleAlt; `none` models the panic of
`entry.Response.(*types.ResponseAlt)` on a default-shaped cached value. -/
def handleAlt (oc : FetchOutcome) (now : ℤ) (loc : Location) (s : ExporterState) :
    Option ExporterState :=
  match s.cache loc.Name with
  | some entry =>
      if now < loc.effTtl * 60 + entry.LastUpdate then
        match entry.Response with
        | .altResp r => some (setAltGauges (bumpHit s loc.Name) loc.Name r)
        | .defaultResp _ => none
      else fetchAlt oc now loc s
  | none => fetchAlt oc now loc s

/-- internal.(*exporter).scrapeTarget: dispatch on the target's fetch
method; a nil method means default, an unrecognized method matches neither
branch and the target is skipped. -/
def scrapeTarget (oc : FetchOutcome) (now : ℤ) (loc : Location) (s : ExporterState) :
    Option ExporterState :=
  match loc.FetchMethod with
  | none => handleDefault oc now loc s
  | some m =>
      if m = FetchMethodDefault then handleDefault oc now loc s
      else if m = FetchMethodAlt then handleAlt oc now loc s
      else some s

/-- internal.(*exporter).scrape: walk the configured targets in order. -/
def scrape (o : Oracle) (now : ℤ) : List Location → ExporterState → Option ExporterState
  | [], s => some s
  | loc :: rest, s =>
      match scrapeTarget (o loc) now loc s with
      | none => none
      | some s2 => scrape o now rest s2

/-- internal.(*exporter).Collect: increment the total-scrapes counter once
per cycle, then scrape. -/
def Collect (o : Oracle) (now : ℤ) (cfg : List Location) (s : ExporterState) :
    Option ExporterState :=
  scrape o now cfg { s with totalScrapes := s.totalScrapes + 1 }

/-! ## Specification-side derived notions -/

/-- The two cached response shapes. -/
inductive CachedShape where
  | shapeDefault
  | shapeAlt
deriving DecidableEq

def CachedResponse.shape : CachedResponse → CachedShape
  | .defaultResp _ => .shapeDefault
  | .altResp _ => .shapeAlt

/-- Which handler scrapeTarget dispatches to: nil and "default" go to
handleDefault, "alt" to handleAlt, anything else to neither. -/
def fetchShape (loc : Location) : Option CachedShape :=
  match loc.FetchMethod with
  | none => some .shapeDefault
  | some m =>
      if m = FetchMethodDefault then some .shapeDefault
      else if m = FetchMethodAlt then some .shapeAlt
      else none

/-- The cache entry under this target's name, if any, has the shape of the
target's fetch method. -/
def entryMatches (s : ExporterState) (loc : Location) : Bool :=
  match fetchShape loc, s.cache loc.Name with
  | some sh, some e => e.Response.shape = sh
  | _, _ => true

/-- Shape-consistency of the cache with respect to a target list
(the §3 invariant of the spec). -/
def ShapeOk (s : ExporterState) (cfg : List Location) : Prop :=
  ∀ loc ∈ cfg, entryMatches s loc = true

/-- The configured targets carry pairwise distinct names. -/
def NodupNames (cfg : List Location) : Bool :=
  (cfg.map Location.Name).Nodup

/-- The cache holds an entry for this target that is still fresh at `now`
(the handlers' `time.Now().Unix() < int64(TtlMinutes*60)+LastUpdate.Unix()`
test). -/
def hasFreshEntry (s : ExporterState) (now : ℤ) (loc : Location) : Bool :=
  match s.cache loc.Name with
  | some e => now < loc.effTtl * 60 + e.LastUpdate
  | none => false

/-- The gauge values handleDefault writes from a default-shape response
(the three unconditional `Set` calls); `none` for the ten gauges it never
touches. -/
def defaultField (r : CurrentWeatherDefault) : Gauge → Option ℚ
  | .temp => some r.Temperature
  | .windSpeed => some r.WindSpeed
  | .windDir => some r.WindDirection
  | _ => none

/-- The gauge values handleAlt writes from an alternate-shape response:
exactly the present optional fields (WeatherCode feeds no gauge). -/
def altField (r : CurrentWeatherAlt) : Gauge → Option ℚ
  | .temp => r.Temperature
  | .tempApparent => r.ApparentTemperature
  | .relHumidity => r.RelativeHumidity
  | .precip => r.Precipitation
  | .rain => r.Rain
  | .showers => r.Showers
  | .snowfall => r.Snowfall
  | .cloudCover => r.CloudCover
  | .surfacePressure => r.SurfacePressure
  | .pressureMsl => r.PressureMsl
  | .windSpeed => r.WindSpeed
  | .windDir => r.WindDirection
  | .windGusts => r.WindGusts

def projGauge : CachedResponse → Gauge → Option ℚ
  | .defaultResp r, g => defaultField r.CurrentWeather g
  | .altResp r, g => altField r.CurrentWeather g

/-- Overwrite a gauge series when the projected value is present, keep the
old series otherwise. -/
def overlay : Option ℚ → Option ℚ → Option ℚ
  | some v, _ => some v
  | none, old => old

/-- Decode a fetched body according to the handler's shape. -/
def decodeShape (sh : CachedShape) (body : Option Json) : Option CachedResponse :=
  match body with
  | none => none
  | some j =>
      match sh with
      | .shapeDefault => (decodeResponse j).map .defaultResp
      | .shapeAlt => (decodeResponseAlt j).map .altResp

/-- The gauge writes performed for a decoded response of either shape. -/
def setRespGauges (s : ExporterState) (n : String) : CachedResponse → ExporterState
  | .defaultResp r => setDefaultGauges s n r
  | .altResp r => setAltGauges s n r

/-- What happens to one target in one cycle: skipped (unrecognized fetch
method), a cache hit on entry `e`, a fetch decoded to `r` after reading
`len` bytes, or a failed fetch that read `len` bytes (0 when the transport
or the body read failed). -/
inductive TargetOutcome where
  | skipped
  | hit (e : CacheEntry)
  | fetched (r : CachedResponse) (len : ℕ)
  | failed (len : ℕ)

def fetchClass (sh : CachedShape) : FetchOutcome → TargetOutcome
  | .transportError => .failed 0
  | .readError => .failed 0
  | .ok _ body len =>
      match decodeShape sh body with
      | some r => .fetched r len
      | none => .failed len

/-- Classify what scrapeTarget will do to `loc` in state `s` at time
`now` when the fetch outcome would be `oc`. -/
def classify (oc : FetchOutcome) (now : ℤ) (s : ExporterState) (loc : Location) :
    TargetOutcome :=
  match fetchShape loc with
  | none => .skipped
  | some sh =>
      match s.cache loc.Name with
      | some e => if now < loc.effTtl * 60 + e.LastUpdate then .hit e else fetchClass sh oc
      | none => fetchClass sh oc

/-- The state transformation corresponding to each target outcome. -/
def applyOutcome (now : ℤ) (loc : Location) (s : ExporterState) :
    TargetOutcome → ExporterState
  | .skipped => s
  | .hit e => setRespGauges (bumpHit s loc.Name) loc.Name e.Response
  | .fetched r len =>
      setRespGauges (writeCache (addTraffic (bumpNet s loc.Name) len) loc.Name r now) loc.Name r
  | .failed len => onError (addTraffic (bumpNet s loc.Name) len)

def isFailed : TargetOutcome → Bool
  | .failed _ => true
  | _ => false

/-- Bytes added to the traffic counter by each outcome. -/
def trafficOf : TargetOutcome → ℕ
  | .fetched _ len => len
  | .failed len => len
  | _ => 0

/-! ## Pointwise lemmas about the state operations -/

theorem overlay_idem (p x : Option ℚ) : overlay p (overlay p x) = overlay p x := by
  cases p <;> rfl

theorem setGauge_apply (G : Gauge × String → Option ℚ) (g : Gauge) (n : String) (v : ℚ)
    (p : Gauge × String) : setGauge G g n v p = if p = (g, n) then some v else G p := by
  simp [setGauge, Function.update_apply]

theorem setOpt_apply (G : Gauge × String → Option ℚ) (g : Gauge) (n : String) (v : Option ℚ)
    (p : Gauge × String) : setOpt G g n v p = if p = (g, n) then overlay v (G p) else G p := by
  cases v <;> simp [setOpt, overlay, Function.update_apply]

theorem setDefaultGauges_gauges (s : ExporterState) (n : String) (r : Response) (g : Gauge)
    (m : String) :
    (setDefaultGauges s n r).gauges (g, m) =
      if m = n then overlay (projGauge (.defaultResp r) g) (s.gauges (g, m))
      else s.gauges (g, m) := by
  by_cases hm : m = n <;>
    cases g <;>
      simp [setDefaultGauges, setGauge_apply, projGauge, defaultField, overlay, hm,
        Prod.ext_iff]

theorem setAltGauges_gauges (s : ExporterState) (n : String) (r : ResponseAlt) (g : Gauge)
    (m : String) :
    (setAltGauges s n r).gauges (g, m) =
      if m = n then overlay (projGauge (.altResp r) g) (s.gauges (g, m))
      else s.gauges (g, m) := by
  by_cases hm : m = n <;>
    cases g <;>
      simp [setAltGauges, setOpt_apply, projGauge, altField, overlay, hm, Prod.ext_iff]

theorem setRespGauges_gauges (s : ExporterState) (n : String) (resp : CachedResponse)
    (g : Gauge) (m : String) :
    (setRespGauges s n resp).gauges (g, m) =
      if m = n then overlay (projGauge resp g) (s.gauges (g, m)) else s.gauges (g, m) := by
  cases resp
  · exact setDefaultGauges_gauges ..
  · exact setAltGauges_gauges ..

theorem setRespGauges_cacheHit (s : ExporterState) (n : String) (resp : CachedResponse) :
    (setRespGauges s n resp).cacheHit = s.cacheHit := by cases resp <;> rfl

theorem setRespGauges_totalScrapes (s : ExporterState) (n : String) (resp : CachedResponse) :
    (setRespGauges s n resp).totalScrapes = s.totalScrapes := by cases resp <;> rfl

theorem setRespGauges_scrapeErrors (s : ExporterState) (n : String) (resp : CachedResponse) :
    (setRespGauges s n resp).scrapeErrors = s.scrapeErrors := by cases resp <;> rfl

theorem setRespGauges_httpTraffic (s : ExporterState) (n : String) (resp : CachedResponse) :
    (setRespGauges s n resp).httpTraffic = s.httpTraffic := by cases resp <;> rfl

theorem setRespGauges_netRequests (s : ExporterState) (n : String) (resp : CachedResponse) :
    (setRespGauges s n resp).netRequests = s.netRequests := by cases resp <;> rfl

theorem setRespGauges_cache (s : ExporterState) (n : String) (resp : CachedResponse) :
    (setRespGauges s n resp).cache = s.cache := by cases resp <;> rfl

/-! ## scrapeTarget characterized by classify and applyOutcome -/

theorem decodeShape_shape (sh : CachedShape) (body : Option Json) (r : CachedResponse)
    (h : decodeShape sh body = some r) : r.shape = sh := by
  cases body with
  | none => simp [decodeShape] at h
  | some j =>
      cases sh <;> simp only [decodeShape] at h
      · cases hd : decodeResponse j <;> rw [hd] at h <;> simp at h
        rw [← h]; rfl
      · cases hd : decodeResponseAlt j <;> rw [hd] at h <;> simp at h
        rw [← h]; rfl

theorem fetchDefault_eq (oc : FetchOutcome) (now : ℤ) (loc : Location) (s : ExporterState) :
    fetchDefault oc now loc s =
      some (applyOutcome now loc s (fetchClass .shapeDefault oc)) := by
  cases oc with
  | transportError =>
      simp [fetchDefault, applyOutcome, fetchClass, addTraffic]
  | readError =>
      simp [fetchDefault, applyOutcome, fetchClass, addTraffic]
  | ok st body len =>
      cases body with
      | none => simp [fetchDefault, applyOutcome, fetchClass, decodeShape]
      | some j =>
          cases hd : decodeResponse j <;>
            simp [fetchDefault, applyOutcome, fetchClass, decodeShape, hd, setRespGauges]

theorem fetchAlt_eq (oc : FetchOutcome) (now : ℤ) (loc : Location) (s : ExporterState) :
    fetchAlt oc now loc s = some (applyOutcome now loc s (fetchClass .shapeAlt oc)) := by
  cases oc with
  | transportError => simp [fetchAlt, applyOutcome, fetchClass, addTraffic]
  | readError => simp [fetchAlt, applyOutcome, fetchClass, addTraffic]
  | ok st body len =>
      cases body with
      | none => simp [fetchAlt, applyOutcome, fetchClass, decodeShape]
      | some j =>
          cases hd : decodeResponseAlt j <;>
            simp [fetchAlt, applyOutcome, fetchClass, decodeShape, hd, setRespGauges]

theorem handleDefault_eq (oc : FetchOutcome) (now : ℤ) (loc : Location) (s : ExporterState)
    (hm : ∀ e, s.cache loc.Name = some e → e.Response.shape = .shapeDefault) :
    handleDefault oc now loc s =
      some (applyOutcome now loc s
        (match s.cache loc.Name with
         | some e =>
             if now < loc.effTtl * 60 + e.LastUpdate then .hit e
             else fetchClass .shapeDefault oc
         | none => fetchClass .shapeDefault oc)) := by
  unfold handleDefault
  cases hc : s.cache loc.Name with
  | none => simpa using fetchDefault_eq oc now loc s
  | some e =>
      by_cases hf : now < loc.effTtl * 60 + e.LastUpdate
      · cases hr : e.Response with
        | defaultResp r => simp [hf, hr, applyOutcome, setRespGauges]
        | altResp r =>
            have := hm e hc
            rw [hr] at this
            simp [CachedResponse.shape] at this
      · simpa [hf] using fetchDefault_eq oc now loc s

theorem handleAlt_eq (oc : FetchOutcome) (now : ℤ) (loc : Location) (s : ExporterState)
    (hm : ∀ e, s.cache loc.Name = some e → e.Response.shape = .shapeAlt) :
    handleAlt oc now loc s =
      some (applyOutcome now loc s
        (match s.cache loc.Name with
         | some e =>
             if now < loc.effTtl * 60 + e.LastUpdate then .hit e
             else fetchClass .shapeAlt oc
         | none => fetchClass .shapeAlt oc)) := by
  unfold handleAlt
  cases hc : s.cache loc.Name with
  | none => simpa using fetchAlt_eq oc now loc s
  | some e =>
      by_cases hf : now < loc.effTtl * 60 + e.LastUpdate
      · cases hr : e.Response with
        | altResp r => simp [hf, hr, applyOutcome, setRespGauges]
        | defaultResp r =>
            have := hm e hc
            rw [hr] at this
            simp [CachedResponse.shape] at this
      · simpa [hf] using fetchAlt_eq oc now loc s

theorem entryMatches_spec {s : ExporterState} {loc : Location} {sh : CachedShape}
    (hsh : fetchShape loc = some sh) (hm : entryMatches s loc = true) :
    ∀ e, s.cache loc.Name = some e → e.Response.shape = sh := by
  intro e he
  unfold entryMatches at hm
  rw [hsh, he] at hm
  simpa using hm

theorem fetchShape_none_cases (loc : Location) (hsh : fetchShape loc = none) :
    ∃ m, loc.FetchMethod = some m ∧ m ≠ FetchMethodDefault ∧ m ≠ FetchMethodAlt := by
  unfold fetchShape at hsh
  cases hfm : loc.FetchMethod with
  | none => rw [hfm] at hsh; simp at hsh
  | some m =>
      rw [hfm] at hsh
      by_cases h1 : m = FetchMethodDefault
      · simp [h1] at hsh
      · by_cases h2 : m = FetchMethodAlt
        · simp [h1] at hsh; simp [h2] at hsh
        · exact ⟨m, rfl, h1, h2⟩

theorem fetchShape_default_cases (loc : Location)
    (hsh : fetchShape loc = some .shapeDefault) :
    loc.FetchMethod = none ∨ loc.FetchMethod = some FetchMethodDefault := by
  unfold fetchShape at hsh
  cases hfm : loc.FetchMethod with
  | none => exact Or.inl rfl
  | some m =>
      rw [hfm] at hsh
      by_cases h1 : m = FetchMethodDefault
      · exact Or.inr (by rw [h1])
      · by_cases h2 : m = FetchMethodAlt
        · simp [h1] at hsh
        · simp [h1, h2] at hsh

theorem fetchShape_alt_cases (loc : Location) (hsh : fetchShape loc = some .shapeAlt) :
    loc.FetchMethod = some FetchMethodAlt := by
  unfold fetchShape at hsh
  cases hfm : loc.FetchMethod with
  | none => rw [hfm] at hsh; simp at hsh
  | some m =>
      rw [hfm] at hsh
      by_cases h1 : m = FetchMethodDefault
      · simp [h1] at hsh
      · by_cases h2 : m = FetchMethodAlt
        · rw [h2]
        · simp [h1, h2] at hsh

theorem classify_none (oc : FetchOutcome) (now : ℤ) (s : ExporterState) (loc : Location)
    (hsh : fetchShape loc = none) : classify oc now s loc = .skipped := by
  unfold classify
  rw [hsh]

theorem classify_some (oc : FetchOutcome) (now : ℤ) (s : ExporterState) (loc : Location)
    (sh : CachedShape) (hsh : fetchShape loc = some sh) :
    classify oc now s loc =
      (match s.cache loc.Name with
       | some e =>
           if now < loc.effTtl * 60 + e.LastUpdate then .hit e else fetchClass sh oc
       | none => fetchClass sh oc) := by
  unfold classify
  rw [hsh]

/-- The central characterization: on a shape-consistent state,
scrapeTarget never panics and acts exactly as `applyOutcome` of the
target's classification. -/
theorem scrapeTarget_classified (oc : FetchOutcome) (now : ℤ) (loc : Location)
    (s : ExporterState) (hm : entryMatches s loc = true) :
    scrapeTarget oc now loc s = some (applyOutcome now loc s (classify oc now s loc)) := by
  cases hsh : fetchShape loc with
  | none =>
      obtain ⟨m, hfm, h1, h2⟩ := fetchShape_none_cases loc hsh
      have hd : scrapeTarget oc now loc s = some s := by
        unfold scrapeTarget
        rw [hfm]
        show (if m = FetchMethodDefault then handleDefault oc now loc s
          else if m = FetchMethodAlt then handleAlt oc now loc s else some s) = some s
        rw [if_neg h1, if_neg h2]
      rw [hd, classify_none oc now s loc hsh]
      rfl
  | some sh =>
      have hm2 := entryMatches_spec hsh hm
      rw [classify_some oc now s loc sh hsh]
      cases sh with
      | shapeDefault =>
          have hd : scrapeTarget oc now loc s = handleDefault oc now loc s := by
            rcases fetchShape_default_cases loc hsh with hfm | hfm
            · unfold scrapeTarget
              rw [hfm]
            · unfold scrapeTarget
              rw [hfm]
              show (if FetchMethodDefault = FetchMethodDefault then handleDefault oc now loc s
                else if FetchMethodDefault = FetchMethodAlt then handleAlt oc now loc s
                else some s) = handleDefault oc now loc s
              rw [if_pos rfl]
          rw [hd]
          exact handleDefault_eq oc now loc s hm2
      | shapeAlt =>
          have hfm := fetchShape_alt_cases loc hsh
          have hd : scrapeTarget oc now loc s = handleAlt oc now loc s := by
            unfold scrapeTarget
            rw [hfm]
            show (if FetchMethodAlt = FetchMethodDefault then handleDefault oc now loc s
              else if FetchMethodAlt = FetchMethodAlt then handleAlt oc now loc s
              else some s) = handleAlt oc now loc s
            rw [if_neg (by decide : ¬FetchMethodAlt = FetchMethodDefault), if_pos rfl]
          rw [hd]
          exact handleAlt_eq oc now loc s hm2

/-! ## Component lemmas for applyOutcome, and the unconditional
characterization of a `some` result of scrapeTarget -/

/-- The decoded response an outcome carries, if any. -/
def respOf : TargetOutcome → Option CachedResponse
  | .hit e => some e.Response
  | .fetched r _ => some r
  | _ => none

/-- The gauge values an outcome writes at the target's name. -/
def projOf (t : TargetOutcome) (g : Gauge) : Option ℚ :=
  match respOf t with
  | some resp => projGauge resp g
  | none => none

def isHit : TargetOutcome → Bool
  | .hit _ => true
  | _ => false

/-- Network requests (calls to client.Do) an outcome performs. -/
def netOf : TargetOutcome → ℕ
  | .fetched _ _ => 1
  | .failed _ => 1
  | _ => 0

/-- The cache entry under the target's own name after an outcome. -/
def cacheAfter (now : ℤ) (old : Option CacheEntry) : TargetOutcome → Option CacheEntry
  | .fetched r _ => some ⟨r, now⟩
  | _ => old

theorem applyOutcome_totalScrapes (now : ℤ) (loc : Location) (s : ExporterState)
    (t : TargetOutcome) : (applyOutcome now loc s t).totalScrapes = s.totalScrapes := by
  cases t <;>
    simp [applyOutcome, setRespGauges_totalScrapes, bumpHit, bumpNet, addTraffic, writeCache,
      onError]

theorem applyOutcome_scrapeErrors (now : ℤ) (loc : Location) (s : ExporterState)
    (t : TargetOutcome) :
    (applyOutcome now loc s t).scrapeErrors =
      s.scrapeErrors + (if isFailed t then 1 else 0) := by
  cases t <;>
    simp [applyOutcome, isFailed, setRespGauges_scrapeErrors, bumpHit, bumpNet, addTraffic,
      writeCache, onError]

theorem applyOutcome_httpTraffic (now : ℤ) (loc : Location) (s : ExporterState)
    (t : TargetOutcome) :
    (applyOutcome now loc s t).httpTraffic = s.httpTraffic + trafficOf t := by
  cases t <;>
    simp [applyOutcome, trafficOf, setRespGauges_httpTraffic, bumpHit, bumpNet, addTraffic,
      writeCache, onError]

theorem applyOutcome_cacheHit_own (now : ℤ) (loc : Location) (s : ExporterState)
    (t : TargetOutcome) :
    (applyOutcome now loc s t).cacheHit loc.Name =
      s.cacheHit loc.Name + (if isHit t then 1 else 0) := by
  cases t <;>
    simp [applyOutcome, isHit, setRespGauges_cacheHit, bumpHit, bumpNet, addTraffic,
      writeCache, onError, Function.update_apply]

theorem applyOutcome_cacheHit_other (now : ℤ) (loc : Location) (s : ExporterState)
    (t : TargetOutcome) (m : String) (hm : m ≠ loc.Name) :
    (applyOutcome now loc s t).cacheHit m = s.cacheHit m := by
  cases t <;>
    simp [applyOutcome, setRespGauges_cacheHit, bumpHit, bumpNet, addTraffic, writeCache,
      onError, Function.update_apply, hm]

theorem applyOutcome_netRequests_own (now : ℤ) (loc : Location) (s : ExporterState)
    (t : TargetOutcome) :
    (applyOutcome now loc s t).netRequests loc.Name = s.netRequests loc.Name + netOf t := by
  cases t <;>
    simp [applyOutcome, netOf, setRespGauges_netRequests, bumpHit, bumpNet, addTraffic,
      writeCache, onError, Function.update_apply]

theorem applyOutcome_netRequests_other (now : ℤ) (loc : Location) (s : ExporterState)
    (t : TargetOutcome) (m : String) (hm : m ≠ loc.Name) :
    (applyOutcome now loc s t).netRequests m = s.netRequests m := by
  cases t <;>
    simp [applyOutcome, setRespGauges_netRequests, bumpHit, bumpNet, addTraffic, writeCache,
      onError, Function.update_apply, hm]

theorem applyOutcome_cache_own (now : ℤ) (loc : Location) (s : ExporterState)
    (t : TargetOutcome) :
    (applyOutcome now loc s t).cache loc.Name = cacheAfter now (s.cache loc.Name) t := by
  cases t <;>
    simp [applyOutcome, cacheAfter, setRespGauges_cache, bumpHit, bumpNet, addTraffic,
      writeCache, onError, Function.update_apply]

theorem applyOutcome_cache_other (now : ℤ) (loc : Location) (s : ExporterState)
    (t : TargetOutcome) (m : String) (hm : m ≠ loc.Name) :
    (applyOutcome now loc s t).cache m = s.cache m := by
  cases t <;>
    simp [applyOutcome, setRespGauges_cache, bumpHit, bumpNet, addTraffic, writeCache,
      onError, Function.update_apply, hm]

theorem applyOutcome_gauges_own (now : ℤ) (loc : Location) (s : ExporterState)
    (t : TargetOutcome) (g : Gauge) :
    (applyOutcome now loc s t).gauges (g, loc.Name) =
      overlay (projOf t g) (s.gauges (g, loc.Name)) := by
  cases t <;>
    simp [applyOutcome, projOf, respOf, overlay, setRespGauges_gauges, bumpHit, bumpNet,
      addTraffic, writeCache, onError]

theorem applyOutcome_gauges_other (now : ℤ) (loc : Location) (s : ExporterState)
    (t : TargetOutcome) (g : Gauge) (m : String) (hm : m ≠ loc.Name) :
    (applyOutcome now loc s t).gauges (g, m) = s.gauges (g, m) := by
  cases t <;>
    simp [applyOutcome, setRespGauges_gauges, bumpHit, bumpNet, addTraffic, writeCache,
      onError, hm]

theorem handleDefault_some_eq (oc : FetchOutcome) (now : ℤ) (loc : Location)
    (s s2 : ExporterState) (h : handleDefault oc now loc s = some s2) :
    s2 = applyOutcome now loc s
      (match s.cache loc.Name with
       | some e =>
           if now < loc.effTtl * 60 + e.LastUpdate then .hit e
           else fetchClass .shapeDefault oc
       | none => fetchClass .shapeDefault oc) := by
  unfold handleDefault at h
  cases hc : s.cache loc.Name with
  | none =>
      rw [hc, fetchDefault_eq] at h
      exact (Option.some.inj h).symm
  | some e =>
      simp only [hc] at h ⊢
      by_cases hf : now < loc.effTtl * 60 + e.LastUpdate
      · simp only [if_pos hf] at h ⊢
        cases hr : e.Response with
        | defaultResp r =>
            simp only [hr, Option.some.injEq] at h
            simp [← h, applyOutcome, setRespGauges, hr]
        | altResp r => simp [hr] at h
      · simp only [if_neg hf] at h ⊢
        rw [fetchDefault_eq] at h
        exact (Option.some.inj h).symm

theorem handleAlt_some_eq (oc : FetchOutcome) (now : ℤ) (loc : Location)
    (s s2 : ExporterState) (h : handleAlt oc now loc s = some s2) :
    s2 = applyOutcome now loc s
      (match s.cache loc.Name with
       | some e =>
           if now < loc.effTtl * 60 + e.LastUpdate then .hit e
           else fetchClass .shapeAlt oc
       | none => fetchClass .shapeAlt oc) := by
  unfold handleAlt at h
  cases hc : s.cache loc.Name with
  | none =>
      rw [hc, fetchAlt_eq] at h
      exact (Option.some.inj h).symm
  | some e =>
      simp only [hc] at h ⊢
      by_cases hf : now < loc.effTtl * 60 + e.LastUpdate
      · simp only [if_pos hf] at h ⊢
        cases hr : e.Response with
        | altResp r =>
            simp only [hr, Option.some.injEq] at h
            simp [← h, applyOutcome, setRespGauges, hr]
        | defaultResp r => simp [hr] at h
      · simp only [if_neg hf] at h ⊢
        rw [fetchAlt_eq] at h
        exact (Option.some.inj h).symm

theorem scrapeTarget_dispatch_none (oc : FetchOutcome) (now : ℤ) (loc : Location)
    (s : ExporterState) (hsh : fetchShape loc = none) : scrapeTarget oc now loc s = some s := by
  obtain ⟨m, hfm, h1, h2⟩ := fetchShape_none_cases loc hsh
  unfold scrapeTarget
  rw [hfm]
  show (if m = FetchMethodDefault then handleDefault oc now loc s
    else if m = FetchMethodAlt then handleAlt oc now loc s else some s) = some s
  rw [if_neg h1, if_neg h2]

theorem scrapeTarget_dispatch_default (oc : FetchOutcome) (now : ℤ) (loc : Location)
    (s : ExporterState) (hsh : fetchShape loc = some .shapeDefault) :
    scrapeTarget oc now loc s = handleDefault oc now loc s := by
  rcases fetchShape_default_cases loc hsh with hfm | hfm
  · unfold scrapeTarget
    rw [hfm]
  · unfold scrapeTarget
    rw [hfm]
    show (if FetchMethodDefault = FetchMethodDefault then handleDefault oc now loc s
      else if FetchMethodDefault = FetchMethodAlt then handleAlt oc now loc s
      else some s) = handleDefault oc now loc s
    rw [if_pos rfl]

theorem scrapeTarget_dispatch_alt (oc : FetchOutcome) (now : ℤ) (loc : Location)
    (s : ExporterState) (hsh : fetchShape loc = some .shapeAlt) :
    scrapeTarget oc now loc s = handleAlt oc now loc s := by
  have hfm := fetchShape_alt_cases loc hsh
  unfold scrapeTarget
  rw [hfm]
  show (if FetchMethodAlt = FetchMethodDefault then handleDefault oc now loc s
    else if FetchMethodAlt = FetchMethodAlt then handleAlt oc now loc s
    else some s) = handleAlt oc now loc s
  rw [if_neg (by decide : ¬FetchMethodAlt = FetchMethodDefault), if_pos rfl]

/-- Whenever scrapeTarget returns (does not panic), the result is the
classified outcome applied — no shape hypothesis needed. -/
theorem scrapeTarget_some_eq (oc : FetchOutcome) (now : ℤ) (loc : Location)
    (s s2 : ExporterState) (h : scrapeTarget oc now loc s = some s2) :
    s2 = applyOutcome now loc s (classify oc now s loc) := by
  cases hsh : fetchShape loc with
  | none =>
      rw [scrapeTarget_dispatch_none oc now loc s hsh] at h
      rw [classify_none oc now s loc hsh]
      exact (Option.some.inj h).symm
  | some sh =>
      rw [classify_some oc now s loc sh hsh]
      cases sh with
      | shapeDefault =>
          rw [scrapeTarget_dispatch_default oc now loc s hsh] at h
          exact handleDefault_some_eq oc now loc s s2 h
      | shapeAlt =>
          rw [scrapeTarget_dispatch_alt oc now loc s hsh] at h
          exact handleAlt_some_eq oc now loc s s2 h

/-! ## Scrape-level induction lemmas -/

theorem classify_congr (oc : FetchOutcome) (now : ℤ) (s s2 : ExporterState) (loc : Location)
    (h : s2.cache loc.Name = s.cache loc.Name) :
    classify oc now s2 loc = classify oc now s loc := by
  unfold classify
  rw [h]

theorem entryMatches_congr (s s2 : ExporterState) (loc : Location)
    (h : s2.cache loc.Name = s.cache loc.Name) :
    entryMatches s2 loc = entryMatches s loc := by
  unfold entryMatches
  rw [h]

theorem scrape_cons (o : Oracle) (now : ℤ) (loc : Location) (rest : List Location)
    (s s2 : ExporterState) (h : scrape o now (loc :: rest) s = some s2) :
    ∃ s1, scrapeTarget (o loc) now loc s = some s1 ∧ scrape o now rest s1 = some s2 := by
  simp only [scrape] at h
  cases hst : scrapeTarget (o loc) now loc s with
  | none => rw [hst] at h; simp at h
  | some s1 => rw [hst] at h; exact ⟨s1, rfl, h⟩

theorem scrape_totalScrapes (o : Oracle) (now : ℤ) (cfg : List Location) :
    ∀ s s2, scrape o now cfg s = some s2 → s2.totalScrapes = s.totalScrapes := by
  induction cfg with
  | nil =>
      intro s s2 h
      simp only [scrape, Option.some.injEq] at h
      rw [← h]
  | cons loc rest ih =>
      intro s s2 h
      obtain ⟨s1, hst, hrest⟩ := scrape_cons o now loc rest s s2 h
      rw [ih s1 s2 hrest, scrapeTarget_some_eq (o loc) now loc s s1 hst,
        applyOutcome_totalScrapes]

theorem scrape_frame (o : Oracle) (now : ℤ) (cfg : List Location) :
    ∀ s s2, scrape o now cfg s = some s2 → ∀ m, m ∉ cfg.map Location.Name →
      s2.cache m = s.cache m ∧ s2.cacheHit m = s.cacheHit m ∧
        s2.netRequests m = s.netRequests m ∧ ∀ g, s2.gauges (g, m) = s.gauges (g, m) := by
  induction cfg with
  | nil =>
      intro s s2 h m _
      simp only [scrape, Option.some.injEq] at h
      rw [← h]
      exact ⟨rfl, rfl, rfl, fun _ => rfl⟩
  | cons loc rest ih =>
      intro s s2 h m hm
      simp only [List.map_cons, List.mem_cons, not_or] at hm
      obtain ⟨s1, hst, hrest⟩ := scrape_cons o now loc rest s s2 h
      have heq := scrapeTarget_some_eq (o loc) now loc s s1 hst
      obtain ⟨hc, hh, hn, hg⟩ := ih s1 s2 hrest m hm.2
      refine ⟨?_, ?_, ?_, ?_⟩
      · rw [hc, heq, applyOutcome_cache_other _ _ _ _ _ hm.1]
      · rw [hh, heq, applyOutcome_cacheHit_other _ _ _ _ _ hm.1]
      · rw [hn, heq, applyOutcome_netRequests_other _ _ _ _ _ hm.1]
      · intro g
        rw [hg g, heq, applyOutcome_gauges_other _ _ _ _ _ _ hm.1]

/-- The per-target effect of one scrape pass, for pairwise distinct target
names: every target's own counters, cache slot and gauges change exactly
according to its classification in the initial state. -/
theorem scrape_perTarget (o : Oracle) (now : ℤ) (cfg : List Location) :
    ∀ s s2, (cfg.map Location.Name).Nodup → scrape o now cfg s = some s2 → ∀ loc ∈ cfg,
      s2.cacheHit loc.Name =
          s.cacheHit loc.Name + (if isHit (classify (o loc) now s loc) then 1 else 0) ∧
        s2.netRequests loc.Name =
          s.netRequests loc.Name + netOf (classify (o loc) now s loc) ∧
        s2.cache loc.Name = cacheAfter now (s.cache loc.Name) (classify (o loc) now s loc) ∧
        ∀ g, s2.gauges (g, loc.Name) =
          overlay (projOf (classify (o loc) now s loc) g) (s.gauges (g, loc.Name)) := by
  induction cfg with
  | nil =>
      intro s s2 _ _ loc hmem
      simp at hmem
  | cons l rest ih =>
      intro s s2 hnd h loc hmem
      obtain ⟨s1, hst, hrest⟩ := scrape_cons o now l rest s s2 h
      have heq := scrapeTarget_some_eq (o l) now l s s1 hst
      simp only [List.map_cons, List.nodup_cons] at hnd
      rcases List.mem_cons.mp hmem with rfl | hmemr
      · obtain ⟨hc, hh, hn, hg⟩ := scrape_frame o now rest s1 s2 hrest loc.Name hnd.1
        refine ⟨?_, ?_, ?_, ?_⟩
        · rw [hh, heq, applyOutcome_cacheHit_own]
        · rw [hn, heq, applyOutcome_netRequests_own]
        · rw [hc, heq, applyOutcome_cache_own]
        · intro g
          rw [hg g, heq, applyOutcome_gauges_own]
      · have hne : loc.Name ≠ l.Name := by
          intro hEq
          exact hnd.1 (hEq ▸ List.mem_map_of_mem Location.Name hmemr)
        obtain ⟨hh, hn, hc, hg⟩ := ih s1 s2 hnd.2 hrest loc hmemr
        have hcac : s1.cache loc.Name = s.cache loc.Name := by
          rw [heq]
          exact applyOutcome_cache_other _ _ _ _ _ hne
        have hcl := classify_congr (o loc) now s s1 loc hcac
        refine ⟨?_, ?_, ?_, ?_⟩
        · rw [hh, hcl, heq, applyOutcome_cacheHit_other _ _ _ _ _ hne]
        · rw [hn, hcl, heq, applyOutcome_netRequests_other _ _ _ _ _ hne]
        · rw [hc, hcl, hcac]
        · intro g
          rw [hg g, hcl, heq, applyOutcome_gauges_other _ _ _ _ _ _ hne]

/-- The scrape-error counter after a pass counts exactly the targets whose
classification is a failed fetch. -/
theorem scrape_scrapeErrors (o : Oracle) (now : ℤ) (cfg : List Location) :
    ∀ s s2, (cfg.map Location.Name).Nodup → scrape o now cfg s = some s2 →
      s2.scrapeErrors =
        s.scrapeErrors + cfg.countP fun loc => isFailed (classify (o loc) now s loc) := by
  induction cfg with
  | nil =>
      intro s s2 _ h
      simp only [scrape, Option.some.injEq] at h
      rw [← h, List.countP_nil]
      omega
  | cons l rest ih =>
      intro s s2 hnd h
      obtain ⟨s1, hst, hrest⟩ := scrape_cons o now l rest s s2 h
      have heq := scrapeTarget_some_eq (o l) now l s s1 hst
      simp only [List.map_cons, List.nodup_cons] at hnd
      have hcount : (rest.countP fun loc => isFailed (classify (o loc) now s1 loc)) =
          rest.countP fun loc => isFailed (classify (o loc) now s loc) := by
        apply List.countP_congr
        intro loc hmemr
        have hne : loc.Name ≠ l.Name := by
          intro hEq
          exact hnd.1 (hEq ▸ List.mem_map_of_mem Location.Name hmemr)
        have hcac : s1.cache loc.Name = s.cache loc.Name := by
          rw [heq]
          exact applyOutcome_cache_other _ _ _ _ _ hne
        rw [classify_congr (o loc) now s s1 loc hcac]
      rw [ih s1 s2 hnd.2 hrest, hcount, heq, applyOutcome_scrapeErrors, List.countP_cons]
      omega

/-- The traffic counter after a pass accumulates exactly the byte counts
of the fetch outcomes. -/
theorem scrape_httpTraffic (o : Oracle) (now : ℤ) (cfg : List Location) :
    ∀ s s2, (cfg.map Location.Name).Nodup → scrape o now cfg s = some s2 →
      s2.httpTraffic =
        s.httpTraffic + (cfg.map fun loc => trafficOf (classify (o loc) now s loc)).sum := by
  induction cfg with
  | nil =>
      intro s s2 _ h
      simp only [scrape, Option.some.injEq] at h
      rw [← h]
      simp
  | cons l rest ih =>
      intro s s2 hnd h
      obtain ⟨s1, hst, hrest⟩ := scrape_cons o now l rest s s2 h
      have heq := scrapeTarget_some_eq (o l) now l s s1 hst
      simp only [List.map_cons, List.nodup_cons] at hnd
      have hmap : (rest.map fun loc => trafficOf (classify (o loc) now s1 loc)) =
          rest.map fun loc => trafficOf (classify (o loc) now s loc) := by
        apply List.map_congr_left
        intro loc hmemr
        have hne : loc.Name ≠ l.Name := by
          intro hEq
          exact hnd.1 (hEq ▸ List.mem_map_of_mem Location.Name hmemr)
        have hcac : s1.cache loc.Name = s.cache loc.Name := by
          rw [heq]
          exact applyOutcome_cache_other _ _ _ _ _ hne
        rw [classify_congr (o loc) now s s1 loc hcac]
      rw [ih s1 s2 hnd.2 hrest, hmap, heq, applyOutcome_httpTraffic, List.map_cons,
        List.sum_cons]
      omega

/-! ## Preservation of the shape invariant -/

theorem fetchClass_fetched (sh : CachedShape) (oc : FetchOutcome) (r : CachedResponse)
    (len : ℕ) (h : fetchClass sh oc = .fetched r len) : r.shape = sh := by
  cases oc with
  | transportError => simp [fetchClass] at h
  | readError => simp [fetchClass] at h
  | ok st body l =>
      simp only [fetchClass] at h
      cases hd : decodeShape sh body with
      | none => rw [hd] at h; simp at h
      | some r0 =>
          rw [hd] at h
          simp only [TargetOutcome.fetched.injEq] at h
          rw [← h.1]
          exact decodeShape_shape sh body r0 hd

theorem classify_fetched (oc : FetchOutcome) (now : ℤ) (s : ExporterState) (loc : Location)
    (r : CachedResponse) (len : ℕ) (h : classify oc now s loc = .fetched r len) :
    ∃ sh, fetchShape loc = some sh ∧ r.shape = sh := by
  unfold classify at h
  cases hsh : fetchShape loc with
  | none =>
      simp only [hsh] at h
      exact absurd h (by simp)
  | some sh =>
      simp only [hsh] at h
      refine ⟨sh, rfl, ?_⟩
      cases hc : s.cache loc.Name with
      | none =>
          simp only [hc] at h
          exact fetchClass_fetched sh oc r len h
      | some e =>
          simp only [hc] at h
          by_cases hf : now < loc.effTtl * 60 + e.LastUpdate
          · simp only [if_pos hf] at h
            exact absurd h (by simp)
          · simp only [if_neg hf] at h
            exact fetchClass_fetched sh oc r len h

theorem entryMatches_applyOutcome (oc : FetchOutcome) (now : ℤ) (s : ExporterState)
    (loc : Location) (hm : entryMatches s loc = true) :
    entryMatches (applyOutcome now loc s (classify oc now s loc)) loc = true := by
  cases hcl : classify oc now s loc with
  | skipped =>
      have hcac : (applyOutcome now loc s .skipped).cache loc.Name = s.cache loc.Name := by
        rw [applyOutcome_cache_own]
        rfl
      rw [entryMatches_congr s _ loc hcac]
      exact hm
  | hit e =>
      have hcac : (applyOutcome now loc s (.hit e)).cache loc.Name = s.cache loc.Name := by
        rw [applyOutcome_cache_own]
        rfl
      rw [entryMatches_congr s _ loc hcac]
      exact hm
  | failed len =>
      have hcac : (applyOutcome now loc s (.failed len)).cache loc.Name = s.cache loc.Name := by
        rw [applyOutcome_cache_own]
        rfl
      rw [entryMatches_congr s _ loc hcac]
      exact hm
  | fetched r len =>
      have hcac : (applyOutcome now loc s (.fetched r len)).cache loc.Name =
          some ⟨r, now⟩ := by
        rw [applyOutcome_cache_own]
        rfl
      obtain ⟨sh, hsh, hshape⟩ := classify_fetched oc now s loc r len hcl
      unfold entryMatches
      rw [hsh, hcac]
      simp [hshape]

/-- A whole scrape pass on a shape-consistent state with unique target
names neither panics nor breaks the shape invariant. -/
theorem scrape_shapeOk (o : Oracle) (now : ℤ) (cfg : List Location) :
    ∀ s, (cfg.map Location.Name).Nodup → ShapeOk s cfg →
      ∃ s2, scrape o now cfg s = some s2 ∧ ShapeOk s2 cfg := by
  induction cfg with
  | nil =>
      intro s _ _
      exact ⟨s, rfl, by intro loc hmem; simp at hmem⟩
  | cons l rest ih =>
      intro s hnd hok
      simp only [List.map_cons, List.nodup_cons] at hnd
      have hml : entryMatches s l = true := hok l (List.mem_cons_self l rest)
      have hst := scrapeTarget_classified (o l) now l s hml
      have hok1 : ShapeOk (applyOutcome now l s (classify (o l) now s l)) rest := by
        intro loc hmem
        have hne : loc.Name ≠ l.Name := by
          intro hEq
          exact hnd.1 (hEq ▸ List.mem_map_of_mem Location.Name hmem)
        have hcac : (applyOutcome now l s (classify (o l) now s l)).cache loc.Name =
            s.cache loc.Name := applyOutcome_cache_other _ _ _ _ _ hne
        rw [entryMatches_congr s _ loc hcac]
        exact hok loc (List.mem_cons_of_mem _ hmem)
      obtain ⟨s2, hs2, hok2⟩ := ih (applyOutcome now l s (classify (o l) now s l)) hnd.2 hok1
      refine ⟨s2, ?_, ?_⟩
      · simp only [scrape, hst]
        exact hs2
      · intro loc hmem
        rcases List.mem_cons.mp hmem with rfl | hmemr
        · obtain ⟨hc, _, _, _⟩ :=
            scrape_frame o now rest _ s2 hs2 loc.Name hnd.1
          rw [entryMatches_congr _ s2 loc hc]
          exact entryMatches_applyOutcome (o loc) now s loc hml
        · exact hok2 loc hmemr

/-! ## Decode lemmas for the alternate shape: missing optional fields -/

/-- The json tag of the field feeding each gauge (src/types/types.go). -/
def altTag : Gauge → String
  | .temp => "temperature_2m"
  | .tempApparent => "apparent_temperature"
  | .relHumidity => "relative_humidity_2m"
  | .precip => "precipitation"
  | .rain => "rain"
  | .showers => "showers"
  | .snowfall => "snowfall"
  | .cloudCover => "cloud_cover"
  | .surfacePressure => "surface_pressure"
  | .pressureMsl => "pressure_msl"
  | .windSpeed => "wind_speed_10m"
  | .windDir => "wind_direction_10m"
  | .windGusts => "wind_gusts_10m"

def numOrNull : Json → Bool
  | .num _ => true
  | .null => true
  | _ => false

theorem altField_zero (g : Gauge) : altField zeroCWA g = none := by
  cases g <;> rfl

theorem isSome_ite_some {α : Type} {p : Prop} [Decidable p] (a : α) (o : Option α)
    (h : o.isSome = true) : (if p then some a else o).isSome = true := by
  split
  · rfl
  · exact h

theorem decodeCWAField_isSome (c : CurrentWeatherAlt) (k : String) (v : Json)
    (hv : numOrNull v = true) : (decodeCWAField c k v).isSome := by
  cases v with
  | num x =>
      unfold decodeCWAField
      simp only [decOptNum, Option.map_some']
      repeat apply isSome_ite_some
      rfl
  | null =>
      unfold decodeCWAField
      simp only [decOptNum, Option.map_some']
      repeat apply isSome_ite_some
      rfl
  | str x => simp [numOrNull] at hv
  | bool b => simp [numOrNull] at hv
  | arr xs => simp [numOrNull] at hv
  | obj gs => simp [numOrNull] at hv

theorem decodeCWAObj_isSome (fs : List (String × Json)) :
    ∀ c, (∀ kv ∈ fs, numOrNull kv.2 = true) → (decodeCWAObj c fs).isSome := by
  induction fs with
  | nil => intro c _; simp [decodeCWAObj]
  | cons kv rest ih =>
      intro c hv
      obtain ⟨k, v⟩ := kv
      have h1 : (decodeCWAField c k v).isSome :=
        decodeCWAField_isSome c k v (hv (k, v) (List.mem_cons_self _ _))
      obtain ⟨c2, hc2⟩ := Option.isSome_iff_exists.mp h1
      simp only [decodeCWAObj, hc2, Option.some_bind]
      exact ih c2 fun kv hm => hv kv (List.mem_cons_of_mem _ hm)

/-- A key that does not case-insensitively match a field's tag cannot
change that field. -/
theorem decodeCWAField_absent (c : CurrentWeatherAlt) (k : String) (v : Json) (g : Gauge)
    (hk : eqCI k (altTag g) = false) (c2 : CurrentWeatherAlt)
    (h : decodeCWAField c k v = some c2) : altField c2 g = altField c g := by
  unfold decodeCWAField at h
  by_cases b : eqCI k "temperature_2m" = true
  · rw [if_pos b] at h
    rcases hx : decOptNum v with _ | x
    · simp only [hx, Option.map_none'] at h
      exact absurd h (by simp)
    · simp only [hx, Option.map_some', Option.some.injEq] at h
      subst h
      cases g <;>
        first
          | rfl
          | (simp only [altTag] at hk; exact absurd b (by simp [hk]))
  · rw [if_neg b] at h
    by_cases b : eqCI k "apparent_temperature" = true
    · rw [if_pos b] at h
      rcases hx : decOptNum v with _ | x
      · simp only [hx, Option.map_none'] at h
        exact absurd h (by simp)
      · simp only [hx, Option.map_some', Option.some.injEq] at h
        subst h
        cases g <;>
          first
            | rfl
            | (simp only [altTag] at hk; exact absurd b (by simp [hk]))
    · rw [if_neg b] at h
      by_cases b : eqCI k "relative_humidity_2m" = true
      · rw [if_pos b] at h
        rcases hx : decOptNum v with _ | x
        · simp only [hx, Option.map_none'] at h
          exact absurd h (by simp)
        · simp only [hx, Option.map_some', Option.some.injEq] at h
          subst h
          cases g <;>
            first
              | rfl
              | (simp only [altTag] at hk; exact absurd b (by simp [hk]))
      · rw [if_neg b] at h
        by_cases b : eqCI k "precipitation" = true
        · rw [if_pos b] at h
          rcases hx : decOptNum v with _ | x
          · simp only [hx, Option.map_none'] at h
            exact absurd h (by simp)
          · simp only [hx, Option.map_some', Option.some.injEq] at h
            subst h
            cases g <;>
              first
                | rfl
                | (simp only [altTag] at hk; exact absurd b (by simp [hk]))
        · rw [if_neg b] at h
          by_cases b : eqCI k "rain" = true
          · rw [if_pos b] at h
            rcases hx : decOptNum v with _ | x
            · simp only [hx, Option.map_none'] at h
              exact absurd h (by simp)
            · simp only [hx, Option.map_some', Option.some.injEq] at h
              subst h
              cases g <;>
                first
                  | rfl
                  | (simp only [altTag] at hk; exact absurd b (by simp [hk]))
          · rw [if_neg b] at h
            by_cases b : eqCI k "showers" = true
            · rw [if_pos b] at h
              rcases hx : decOptNum v with _ | x
              · simp only [hx, Option.map_none'] at h
                exact absurd h (by simp)
              · simp only [hx, Option.map_some', Option.some.injEq] at h
                subst h
                cases g <;>
                  first
                    | rfl
                    | (simp only [altTag] at hk; exact absurd b (by simp [hk]))
            · rw [if_neg b] at h
              by_cases b : eqCI k "snowfall" = true
              · rw [if_pos b] at h
                rcases hx : decOptNum v with _ | x
                · simp only [hx, Option.map_none'] at h
                  exact absurd h (by simp)
                · simp only [hx, Option.map_some', Option.some.injEq] at h
                  subst h
                  cases g <;>
                    first
                      | rfl
                      | (simp only [altTag] at hk; exact absurd b (by simp [hk]))
              · rw [if_neg b] at h
                by_cases b : eqCI k "cloud_cover" = true
                · rw [if_pos b] at h
                  rcases hx : decOptNum v with _ | x
                  · simp only [hx, Option.map_none'] at h
                    exact absurd h (by simp)
                  · simp only [hx, Option.map_some', Option.some.injEq] at h
                    subst h
                    cases g <;>
                      first
                        | rfl
                        | (simp only [altTag] at hk; exact absurd b (by simp [hk]))
                · rw [if_neg b] at h
                  by_cases b : eqCI k "surface_pressure" = true
                  · rw [if_pos b] at h
                    rcases hx : decOptNum v with _ | x
                    · simp only [hx, Option.map_none'] at h
                      exact absurd h (by simp)
                    · simp only [hx, Option.map_some', Option.some.injEq] at h
                      subst h
                      cases g <;>
                        first
                          | rfl
                          | (simp only [altTag] at hk; exact absurd b (by simp [hk]))
                  · rw [if_neg b] at h
                    by_cases b : eqCI k "pressure_msl" = true
                    · rw [if_pos b] at h
                      rcases hx : decOptNum v with _ | x
                      · simp only [hx, Option.map_none'] at h
                        exact absurd h (by simp)
                      · simp only [hx, Option.map_some', Option.some.injEq] at h
                        subst h
                        cases g <;>
                          first
                            | rfl
                            | (simp only [altTag] at hk; exact absurd b (by simp [hk]))
                    · rw [if_neg b] at h
                      by_cases b : eqCI k "wind_speed_10m" = true
                      · rw [if_pos b] at h
                        rcases hx : decOptNum v with _ | x
                        · simp only [hx, Option.map_none'] at h
                          exact absurd h (by simp)
                        · simp only [hx, Option.map_some', Option.some.injEq] at h
                          subst h
                          cases g <;>
                            first
                              | rfl
                              | (simp only [altTag] at hk; exact absurd b (by simp [hk]))
                      · rw [if_neg b] at h
                        by_cases b : eqCI k "wind_direction_10m" = true
                        · rw [if_pos b] at h
                          rcases hx : decOptNum v with _ | x
                          · simp only [hx, Option.map_none'] at h
                            exact absurd h (by simp)
                          · simp only [hx, Option.map_some', Option.some.injEq] at h
                            subst h
                            cases g <;>
                              first
                                | rfl
                                | (simp only [altTag] at hk; exact absurd b (by simp [hk]))
                        · rw [if_neg b] at h
                          by_cases b : eqCI k "wind_gusts_10m" = true
                          · rw [if_pos b] at h
                            rcases hx : decOptNum v with _ | x
                            · simp only [hx, Option.map_none'] at h
                              exact absurd h (by simp)
                            · simp only [hx, Option.map_some', Option.some.injEq] at h
                              subst h
                              cases g <;>
                                first
                                  | rfl
                                  | (simp only [altTag] at hk; exact absurd b (by simp [hk]))
                          · rw [if_neg b] at h
                            by_cases b : eqCI k "weather_code" = true
                            · rw [if_pos b] at h
                              rcases hx : decOptNum v with _ | x
                              · simp only [hx, Option.map_none'] at h
                                exact absurd h (by simp)
                              · simp only [hx, Option.map_some', Option.some.injEq] at h
                                subst h
                                cases g <;> rfl
                            · rw [if_neg b] at h
                              simp only [Option.some.injEq] at h
                              subst h
                              rfl

/-- A field whose tag matches no key of the decoded object keeps its
initial (absent) value. -/
theorem decodeCWAObj_absent (fs : List (String × Json)) :
    ∀ c c2, decodeCWAObj c fs = some c2 → ∀ g,
      (∀ kv ∈ fs, eqCI kv.1 (altTag g) = false) → altField c2 g = altField c g := by
  induction fs with
  | nil =>
      intro c c2 h g _
      simp only [decodeCWAObj, Option.some.injEq] at h
      rw [h]
  | cons kv rest ih =>
      intro c c2 h g habs
      obtain ⟨k, v⟩ := kv
      simp only [decodeCWAObj] at h
      cases hc1 : decodeCWAField c k v with
      | none => rw [hc1] at h; simp at h
      | some c1 =>
          rw [hc1] at h
          simp only [Option.some_bind] at h
          rw [ih c1 c2 h g fun kv hm => habs kv (List.mem_cons_of_mem _ hm),
            decodeCWAField_absent c k v g (habs (k, v) (List.mem_cons_self _ _)) c1 hc1]

/-- Decoding an alternate-shape document whose single top-level key is
`current`. -/
theorem decodeResponseAlt_current (fs : List (String × Json)) :
    decodeResponseAlt (.obj [("current", .obj fs)]) =
      (decodeCWAObj zeroCWA fs).map fun c => { zeroResponseAlt with CurrentWeather := c } := by
  have e1 : eqCI "current" "latitude" = false := by decide
  have e2 : eqCI "current" "longitude" = false := by decide
  have e3 : eqCI "current" "current" = true := by decide
  have hz : zeroResponseAlt.CurrentWeather = zeroCWA := rfl
  simp only [decodeResponseAlt, decodeResponseAltObj, decodeResponseAltField, e1, e2, e3,
    Bool.false_eq_true, if_false, if_true, decodeCWAInto, hz]
  cases hd : decodeCWAObj zeroCWA fs <;> simp [hd, decodeResponseAltObj]

theorem entryMatches_of_none (s : ExporterState) (loc : Location)
    (hc : s.cache loc.Name = none) : entryMatches s loc = true := by
  unfold entryMatches
  rw [hc]
  cases fetchShape loc <;> rfl

theorem classify_of_miss (oc : FetchOutcome) (now : ℤ) (s : ExporterState) (loc : Location)
    (sh : CachedShape) (hsh : fetchShape loc = some sh) (hc : s.cache loc.Name = none) :
    classify oc now s loc = fetchClass sh oc := by
  rw [classify_some oc now s loc sh hsh, hc]

theorem classify_of_stale (oc : FetchOutcome) (now : ℤ) (s : ExporterState) (loc : Location)
    (sh : CachedShape) (e : CacheEntry) (hsh : fetchShape loc = some sh)
    (hc : s.cache loc.Name = some e) (hf : ¬now < loc.effTtl * 60 + e.LastUpdate) :
    classify oc now s loc = fetchClass sh oc := by
  rw [classify_some oc now s loc sh hsh, hc]
  simp only [if_neg hf]

theorem classify_of_fresh (oc : FetchOutcome) (now : ℤ) (s : ExporterState) (loc : Location)
    (sh : CachedShape) (e : CacheEntry) (hsh : fetchShape loc = some sh)
    (hc : s.cache loc.Name = some e) (hf : now < loc.effTtl * 60 + e.LastUpdate) :
    classify oc now s loc = .hit e := by
  rw [classify_some oc now s loc sh hsh, hc]
  simp only [if_pos hf]

/-! ## Small classification facts -/

theorem netOf_fetchClass (sh : CachedShape) (oc : FetchOutcome) :
    netOf (fetchClass sh oc) = 1 := by
  cases oc with
  | transportError => rfl
  | readError => rfl
  | ok st body len =>
      simp only [fetchClass]
      cases decodeShape sh body <;> rfl

theorem trafficOf_fetchClass_ok (sh : CachedShape) (st : ℕ) (body : Option Json) (len : ℕ) :
    trafficOf (fetchClass sh (.ok st body len)) = len := by
  simp only [fetchClass]
  cases decodeShape sh body <;> rfl

theorem fetchClass_ne_hit (sh : CachedShape) (oc : FetchOutcome) (e : CacheEntry) :
    fetchClass sh oc ≠ .hit e := by
  cases oc with
  | transportError => simp [fetchClass]
  | readError => simp [fetchClass]
  | ok st body len =>
      simp only [fetchClass]
      cases decodeShape sh body <;> simp

theorem fetchClass_ne_skipped (sh : CachedShape) (oc : FetchOutcome) :
    fetchClass sh oc ≠ .skipped := by
  cases oc with
  | transportError => simp [fetchClass]
  | readError => simp [fetchClass]
  | ok st body len =>
      simp only [fetchClass]
      cases decodeShape sh body <;> simp

theorem hasFreshEntry_false_spec (s : ExporterState) (now : ℤ) (loc : Location)
    (h : hasFreshEntry s now loc = false) :
    ∀ e, s.cache loc.Name = some e → ¬now < loc.effTtl * 60 + e.LastUpdate := by
  intro e he hf
  unfold hasFreshEntry at h
  rw [he] at h
  simp [hf] at h

theorem hasFreshEntry_true_spec (s : ExporterState) (now : ℤ) (loc : Location)
    (h : hasFreshEntry s now loc = true) :
    ∃ e, s.cache loc.Name = some e ∧ now < loc.effTtl * 60 + e.LastUpdate := by
  unfold hasFreshEntry at h
  cases hc : s.cache loc.Name with
  | none => rw [hc] at h; simp at h
  | some e =>
      rw [hc] at h
      simp only [decide_eq_true_eq] at h
      exact ⟨e, rfl, h⟩

theorem classify_of_noFresh (oc : FetchOutcome) (now : ℤ) (s : ExporterState) (loc : Location)
    (sh : CachedShape) (hsh : fetchShape loc = some sh)
    (hfr : hasFreshEntry s now loc = false) : classify oc now s loc = fetchClass sh oc := by
  cases hc : s.cache loc.Name with
  | none => exact classify_of_miss oc now s loc sh hsh hc
  | some e =>
      exact classify_of_stale oc now s loc sh e hsh hc
        (hasFreshEntry_false_spec s now loc hfr e hc)

theorem classify_hit_spec (oc : FetchOutcome) (now : ℤ) (s : ExporterState) (loc : Location)
    (e : CacheEntry) (sh : CachedShape) (hsh : fetchShape loc = some sh)
    (h : classify oc now s loc = .hit e) :
    s.cache loc.Name = some e ∧ now < loc.effTtl * 60 + e.LastUpdate := by
  rw [classify_some oc now s loc sh hsh] at h
  cases hc : s.cache loc.Name with
  | none =>
      rw [hc] at h
      exact absurd h (fetchClass_ne_hit sh oc e)
  | some e2 =>
      simp only [hc] at h
      by_cases hf : now < loc.effTtl * 60 + e2.LastUpdate
      · rw [if_pos hf] at h
        simp only [TargetOutcome.hit.injEq] at h
        subst h
        exact ⟨rfl, hf⟩
      · rw [if_neg hf] at h
        exact absurd h (fetchClass_ne_hit sh oc e)

theorem classify_failed_not_fresh (oc : FetchOutcome) (now : ℤ) (s : ExporterState)
    (loc : Location) (len : ℕ) (h : classify oc now s loc = .failed len) :
    hasFreshEntry s now loc = false := by
  unfold classify at h
  cases hsh : fetchShape loc with
  | none =>
      rw [hsh] at h
      exact absurd h (by simp)
  | some sh =>
      rw [hsh] at h
      unfold hasFreshEntry
      cases hc : s.cache loc.Name with
      | none => rfl
      | some e =>
          simp only [hc] at h ⊢
          by_cases hf : now < loc.effTtl * 60 + e.LastUpdate
          · rw [if_pos hf] at h
            exact absurd h (by simp)
          · simp [hf]

theorem classify_ne_skipped (oc : FetchOutcome) (now : ℤ) (s : ExporterState) (loc : Location)
    (sh : CachedShape) (hsh : fetchShape loc = some sh) :
    classify oc now s loc ≠ .skipped := by
  rw [classify_some oc now s loc sh hsh]
  cases hc : s.cache loc.Name with
  | none => exact fetchClass_ne_skipped sh oc
  | some e =>
      simp only [hc]
      by_cases hf : now < loc.effTtl * 60 + e.LastUpdate
      · rw [if_pos hf]
        simp
      · rw [if_neg hf]
        exact fetchClass_ne_skipped sh oc

/-! ## Claim theorems -/

/-- C9: for a target whose fetch-method selector is non-nil and equal to
neither "default" nor "alt", scrapeTarget returns with the state entirely
unchanged — no cache access, no fetch, no gauge update, no cache-hit or
scrape-error increment, no error report. -/
theorem C9_unknown_method_silently_skipped (oc : FetchOutcome) (now : ℤ) (loc : Location)
    (s : ExporterState) (m : String) (hfm : loc.FetchMethod = some m)
    (h1 : m ≠ FetchMethodDefault) (h2 : m ≠ FetchMethodAlt) :
    scrapeTarget oc now loc s = some s := by
  unfold scrapeTarget
  rw [hfm]
  show (if m = FetchMethodDefault then handleDefault oc now loc s
    else if m = FetchMethodAlt then handleAlt oc now loc s else some s) = some s
  rw [if_neg h1, if_neg h2]

theorem C9_witness :
    scrapeTarget (.ok 200 (some (.obj [])) 2) 0
      ⟨"u", some "alternate", 0, 0, 0⟩ initState = some initState :=
  C9_unknown_method_silently_skipped (.ok 200 (some (.obj [])) 2) 0
    ⟨"u", some "alternate", 0, 0, 0⟩ initState "alternate" rfl (by decide) (by decide)

/-- C1: the effective TTL is the configured TtlMinutes, or 10 when that is
zero; with a cache entry whose last update plus the effective TTL is still
ahead of the current time, scrapeTarget performs no network request,
increments exactly that target's cache-hit counter by 1 and projects the
cached decoded response into the gauges; otherwise it attempts exactly one
network request for the target. -/
theorem C1_ttl_cache_hit_or_single_fetch (oc : FetchOutcome) (now : ℤ) (loc : Location)
    (s : ExporterState) (sh : CachedShape) (hsh : fetchShape loc = some sh)
    (hm : entryMatches s loc = true) :
    (∀ e, s.cache loc.Name = some e →
      now < (if loc.TtlMinutes = 0 then 10 else loc.TtlMinutes) * 60 + e.LastUpdate →
      scrapeTarget oc now loc s =
          some (setRespGauges (bumpHit s loc.Name) loc.Name e.Response) ∧
        (setRespGauges (bumpHit s loc.Name) loc.Name e.Response).netRequests =
          s.netRequests ∧
        (setRespGauges (bumpHit s loc.Name) loc.Name e.Response).cacheHit loc.Name =
          s.cacheHit loc.Name + 1) ∧
    (hasFreshEntry s now loc = false →
      ∃ s2, scrapeTarget oc now loc s = some s2 ∧
        s2.netRequests loc.Name = s.netRequests loc.Name + 1) := by
  constructor
  · intro e he hf
    have hf2 : now < loc.effTtl * 60 + e.LastUpdate := hf
    have hcl := classify_of_fresh oc now s loc sh e hsh he hf2
    have hst := scrapeTarget_classified oc now loc s hm
    rw [hcl] at hst
    refine ⟨hst, ?_, ?_⟩
    · rw [setRespGauges_netRequests]
      rfl
    · rw [setRespGauges_cacheHit]
      simp [bumpHit, Function.update_apply]
  · intro hfr
    have hcl := classify_of_noFresh oc now s loc sh hsh hfr
    have hst := scrapeTarget_classified oc now loc s hm
    rw [hcl] at hst
    refine ⟨_, hst, ?_⟩
    rw [applyOutcome_netRequests_own, netOf_fetchClass]

def C1loc : Location := ⟨"home", none, 0, 1, 2⟩

def C1entry : CacheEntry := ⟨.defaultResp zeroResponse, 100⟩

def C1state : ExporterState :=
  { initState with cache := Function.update initState.cache "home" (some C1entry) }

theorem C1_witness :
    ∃ s2, scrapeTarget (.ok 200 (some (.obj [])) 7) 400 C1loc C1state = some s2 ∧
      s2.netRequests = C1state.netRequests ∧
      s2.cacheHit "home" = C1state.cacheHit "home" + 1 := by
  obtain ⟨h1, _⟩ := C1_ttl_cache_hit_or_single_fetch (.ok 200 (some (.obj [])) 7) 400 C1loc
    C1state .shapeDefault (by decide) (by decide)
  obtain ⟨hEq, hnet, hhit⟩ := h1 C1entry (by decide) (by decide)
  exact ⟨_, hEq, hnet, hhit⟩

/-- C8: whenever the body of a fetched response is read without error
(outcome `.ok`), the handler adds exactly the body's byte length to the
http_rx_bytes traffic counter — whether or not decoding succeeds
afterwards. -/
theorem C8_traffic_increases_by_body_length (st len : ℕ) (body : Option Json) (now : ℤ)
    (loc : Location) (s : ExporterState) (sh : CachedShape)
    (hsh : fetchShape loc = some sh) (hm : entryMatches s loc = true)
    (hfr : hasFreshEntry s now loc = false) :
    ∃ s2, scrapeTarget (.ok st body len) now loc s = some s2 ∧
      s2.httpTraffic = s.httpTraffic + len := by
  have hcl := classify_of_noFresh (.ok st body len) now s loc sh hsh hfr
  have hst := scrapeTarget_classified (.ok st body len) now loc s hm
  rw [hcl] at hst
  refine ⟨_, hst, ?_⟩
  rw [applyOutcome_httpTraffic, trafficOf_fetchClass_ok]

theorem C8_witness :
    ∃ s2, scrapeTarget (.ok 200 (some (.obj [])) 57) 1000
        ⟨"vienna", none, 0, 1, 2⟩ initState = some s2 ∧
      s2.httpTraffic = initState.httpTraffic + 57 :=
  C8_traffic_increases_by_body_length 200 57 (some (.obj [])) 1000
    ⟨"vienna", none, 0, 1, 2⟩ initState .shapeDefault (by decide) (by decide) (by decide)

/-- C10: when the body is read successfully but JSON decoding fails, the
traffic counter has still grown by the body length, while the cache and
every gauge are untouched and the scrape-error counter grows by 1 — the
error path is not atomic with respect to the traffic counter. -/
theorem C10_traffic_counted_before_decode (st len : ℕ) (body : Option Json) (now : ℤ)
    (loc : Location) (s : ExporterState) (sh : CachedShape)
    (hsh : fetchShape loc = some sh) (hm : entryMatches s loc = true)
    (hfr : hasFreshEntry s now loc = false) (hdec : decodeShape sh body = none) :
    ∃ s2, scrapeTarget (.ok st body len) now loc s = some s2 ∧
      s2.httpTraffic = s.httpTraffic + len ∧
      s2.cache = s.cache ∧
      (∀ g m, s2.gauges (g, m) = s.gauges (g, m)) ∧
      s2.scrapeErrors = s.scrapeErrors + 1 := by
  have hcl := classify_of_noFresh (.ok st body len) now s loc sh hsh hfr
  have hfc : fetchClass sh (.ok st body len) = .failed len := by
    simp [fetchClass, hdec]
  rw [hfc] at hcl
  have hst := scrapeTarget_classified (.ok st body len) now loc s hm
  rw [hcl] at hst
  exact ⟨_, hst, rfl, rfl, fun g m => rfl, rfl⟩

theorem C10_witness :
    ∃ s2, scrapeTarget (.ok 200 (some (.str "oops")) 4) 1000
        ⟨"vienna", none, 0, 1, 2⟩ initState = some s2 ∧
      s2.httpTraffic = initState.httpTraffic + 4 ∧
      s2.cache = initState.cache ∧
      (∀ g m, s2.gauges (g, m) = initState.gauges (g, m)) ∧
      s2.scrapeErrors = initState.scrapeErrors + 1 :=
  C10_traffic_counted_before_decode 200 4 (some (.str "oops")) 1000
    ⟨"vienna", none, 0, 1, 2⟩ initState .shapeDefault (by decide) (by decide) (by decide)
    (by decide)

def C4loc : Location := ⟨"vienna", none, 0, 1, 2⟩

/-- C4 counterexample: a completed fetch with HTTP status 500 (a
non-success status) whose body is the JSON document {} decodes
successfully, so the handler does NOT take the error path: the
scrape-error counter stays 0, the decoded zero-value response IS stored in
the cache, and the gauges are set — contradicting the claim that a
non-success status invokes the error path and stores nothing. -/
theorem C4_counterexample :
    ∃ s2, scrapeTarget (.ok 500 (some (.obj [])) 2) 1000 C4loc initState = some s2 ∧
      s2.scrapeErrors = 0 ∧
      s2.cache "vienna" = some ⟨.defaultResp zeroResponse, 1000⟩ ∧
      s2.netRequests "vienna" = 1 := by
  refine ⟨_, rfl, rfl, ?_, ?_⟩ <;> decide

/-- C4 amended: the handlers never examine the HTTP status code.  For a
completed fetch the result is literally independent of the status, and the
error path is taken exactly when the body fails to decode: on decode
failure the error is counted and nothing is stored, on decode success
(even under a non-success status) the entry is cached and no error is
counted. -/
theorem C4_amended_status_ignored (st1 st2 len : ℕ) (body : Option Json) (now : ℤ)
    (loc : Location) (s : ExporterState) (sh : CachedShape)
    (hsh : fetchShape loc = some sh) (hm : entryMatches s loc = true)
    (hfr : hasFreshEntry s now loc = false) :
    scrapeTarget (.ok st1 body len) now loc s = scrapeTarget (.ok st2 body len) now loc s ∧
    ∃ s2, scrapeTarget (.ok st1 body len) now loc s = some s2 ∧
      (decodeShape sh body = none →
        s2.scrapeErrors = s.scrapeErrors + 1 ∧ s2.cache = s.cache) ∧
      ∀ r, decodeShape sh body = some r →
        s2.scrapeErrors = s.scrapeErrors ∧ s2.cache loc.Name = some ⟨r, now⟩ := by
  have hfc : fetchClass sh (.ok st1 body len) = fetchClass sh (.ok st2 body len) := by
    simp [fetchClass]
  have hcl1 := classify_of_noFresh (.ok st1 body len) now s loc sh hsh hfr
  have hcl2 := classify_of_noFresh (.ok st2 body len) now s loc sh hsh hfr
  have hst1 := scrapeTarget_classified (.ok st1 body len) now loc s hm
  have hst2 := scrapeTarget_classified (.ok st2 body len) now loc s hm
  rw [hcl1] at hst1
  rw [hcl2] at hst2
  constructor
  · rw [hst1, hst2, hfc]
  · refine ⟨_, hst1, ?_, ?_⟩
    · intro hdec
      have hfail : fetchClass sh (.ok st1 body len) = .failed len := by
        simp [fetchClass, hdec]
      rw [hfail]
      exact ⟨rfl, rfl⟩
    · intro r hdec
      have hok : fetchClass sh (.ok st1 body len) = .fetched r len := by
        simp [fetchClass, hdec]
      rw [hok]
      refine ⟨?_, ?_⟩
      · rw [applyOutcome_scrapeErrors]
        rfl
      · rw [applyOutcome_cache_own]
        rfl

theorem C4_amended_witness :
    (scrapeTarget (.ok 500 (some (.obj [])) 2) 1000 C4loc initState =
      scrapeTarget (.ok 200 (some (.obj [])) 2) 1000 C4loc initState) ∧
    ∃ s2, scrapeTarget (.ok 500 (some (.obj [])) 2) 1000 C4loc initState = some s2 ∧
      (decodeShape .shapeDefault (some (.obj [])) = none →
        s2.scrapeErrors = initState.scrapeErrors + 1 ∧ s2.cache = initState.cache) ∧
      ∀ r, decodeShape .shapeDefault (some (.obj [])) = some r →
        s2.scrapeErrors = initState.scrapeErrors ∧ s2.cache C4loc.Name = some ⟨r, 1000⟩ :=
  C4_amended_status_ignored 500 200 2 (some (.obj [])) 1000 C4loc initState .shapeDefault
    (by decide) (by decide) (by decide)

/-- The default-shape example body of the spec:
{"latitude":48.2,"longitude":16.4,"current_weather":{"temperature":-0.1,
"windspeed":5.9,"winddirection":137}}. -/
def exampleDefaultBody : Json :=
  .obj [("latitude", .num 48.2), ("longitude", .num 16.4),
    ("current_weather", .obj [("temperature", .num (-0.1)), ("windspeed", .num 5.9),
      ("winddirection", .num 137)])]

/-- C5: the spec's default-shape body decodes to temperature -0.1, wind
speed 5.9, wind direction 137, and processing that fetch sets exactly the
three gauges temperature, wind_speed and wind_dir for that location,
leaving every other gauge and every other location untouched. -/
theorem C5_default_body_decode_and_gauges (st len : ℕ) (now : ℤ) (loc : Location)
    (s : ExporterState) (hsh : fetchShape loc = some .shapeDefault)
    (hc : s.cache loc.Name = none) :
    decodeResponse exampleDefaultBody = some ⟨48.2, 16.4, ⟨-0.1, 5.9, 137⟩⟩ ∧
    ∃ s2, scrapeTarget (.ok st (some exampleDefaultBody) len) now loc s = some s2 ∧
      s2.gauges (Gauge.temp, loc.Name) = some (-0.1) ∧
      s2.gauges (Gauge.windSpeed, loc.Name) = some 5.9 ∧
      s2.gauges (Gauge.windDir, loc.Name) = some 137 ∧
      (∀ g, g ≠ Gauge.temp → g ≠ Gauge.windSpeed → g ≠ Gauge.windDir →
        ∀ m, s2.gauges (g, m) = s.gauges (g, m)) ∧
      ∀ m, m ≠ loc.Name → ∀ g, s2.gauges (g, m) = s.gauges (g, m) := by
  have hdec : decodeResponse exampleDefaultBody = some ⟨48.2, 16.4, ⟨-0.1, 5.9, 137⟩⟩ := rfl
  refine ⟨hdec, ?_⟩
  have hm := entryMatches_of_none s loc hc
  have hcl := classify_of_miss (.ok st (some exampleDefaultBody) len) now s loc _ hsh hc
  have hfc : fetchClass .shapeDefault (.ok st (some exampleDefaultBody) len) =
      .fetched (.defaultResp ⟨48.2, 16.4, ⟨-0.1, 5.9, 137⟩⟩) len := by
    simp [fetchClass, decodeShape, hdec]
  rw [hfc] at hcl
  have hst := scrapeTarget_classified (.ok st (some exampleDefaultBody) len) now loc s hm
  rw [hcl] at hst
  refine ⟨_, hst, ?_, ?_, ?_, ?_, ?_⟩
  · rw [applyOutcome_gauges_own]
    rfl
  · rw [applyOutcome_gauges_own]
    rfl
  · rw [applyOutcome_gauges_own]
    rfl
  · intro g hg1 hg2 hg3 m
    by_cases hmn : m = loc.Name
    · subst hmn
      rw [applyOutcome_gauges_own]
      cases g <;>
        first
          | rfl
          | exact absurd rfl hg1
          | exact absurd rfl hg2
          | exact absurd rfl hg3
    · exact applyOutcome_gauges_other now loc s _ g m hmn
  · intro m hm2 g
    exact applyOutcome_gauges_other now loc s _ g m hm2

theorem C5_witness :
    ∃ s2, scrapeTarget (.ok 200 (some exampleDefaultBody) 57) 1000
        ⟨"vienna", none, 0, 1, 2⟩ initState = some s2 ∧
      s2.gauges (Gauge.temp, "vienna") = some (-0.1) ∧
      s2.gauges (Gauge.windSpeed, "vienna") = some 5.9 ∧
      s2.gauges (Gauge.windDir, "vienna") = some 137 := by
  obtain ⟨_, s2, h1, h2, h3, h4, _, _⟩ :=
    C5_default_body_decode_and_gauges 200 57 1000 ⟨"vienna", none, 0, 1, 2⟩ initState
      (by decide) (by decide)
  exact ⟨s2, h1, h2, h3, h4⟩

/-- C6: for an alternate-shape payload, every optional field missing from
the `current` object decodes to an absent value rather than a decode error
(decoding succeeds whenever the present values are numbers or null), and
the gauge of every absent field is not set for that target in that cycle —
the previously stored labeled value, if any, is left unchanged. -/
theorem C6_alt_missing_field_absent_gauge_unset (st len : ℕ) (now : ℤ) (loc : Location)
    (s : ExporterState) (fs : List (String × Json)) (g : Gauge)
    (hsh : fetchShape loc = some .shapeAlt) (hc : s.cache loc.Name = none)
    (hnum : ∀ kv ∈ fs, numOrNull kv.2 = true)
    (habs : ∀ kv ∈ fs, eqCI kv.1 (altTag g) = false) :
    ∃ r, decodeResponseAlt (.obj [("current", .obj fs)]) = some r ∧
      altField r.CurrentWeather g = none ∧
      ∃ s2, scrapeTarget (.ok st (some (.obj [("current", .obj fs)])) len) now loc s =
          some s2 ∧
        s2.scrapeErrors = s.scrapeErrors ∧
        (s2.cache loc.Name).isSome = true ∧
        s2.gauges (g, loc.Name) = s.gauges (g, loc.Name) := by
  obtain ⟨c, hcdec⟩ := Option.isSome_iff_exists.mp (decodeCWAObj_isSome fs zeroCWA hnum)
  have hr : decodeResponseAlt (.obj [("current", .obj fs)]) =
      some { zeroResponseAlt with CurrentWeather := c } := by
    rw [decodeResponseAlt_current, hcdec]
    rfl
  have habs2 : altField c g = none := by
    rw [decodeCWAObj_absent fs zeroCWA c hcdec g habs, altField_zero]
  refine ⟨_, hr, habs2, ?_⟩
  have hm := entryMatches_of_none s loc hc
  have hcl := classify_of_miss (.ok st (some (.obj [("current", .obj fs)])) len)
    now s loc _ hsh hc
  have hfc : fetchClass .shapeAlt (.ok st (some (.obj [("current", .obj fs)])) len) =
      .fetched (.altResp { zeroResponseAlt with CurrentWeather := c }) len := by
    simp [fetchClass, decodeShape, hr]
  rw [hfc] at hcl
  have hst := scrapeTarget_classified (.ok st (some (.obj [("current", .obj fs)])) len)
    now loc s hm
  rw [hcl] at hst
  refine ⟨_, hst, ?_, ?_, ?_⟩
  · rw [applyOutcome_scrapeErrors]
    rfl
  · rw [applyOutcome_cache_own]
    rfl
  · rw [applyOutcome_gauges_own]
    have hproj : projOf
        (.fetched (.altResp { zeroResponseAlt with CurrentWeather := c }) len) g = none := by
      simp only [projOf, respOf, projGauge]
      exact habs2
    rw [hproj]
    rfl

theorem C6_witness :
    ∃ r, decodeResponseAlt (.obj [("current", .obj [("temperature_2m", .num 3)])]) =
        some r ∧
      altField r.CurrentWeather Gauge.rain = none ∧
      ∃ s2, scrapeTarget
          (.ok 200 (some (.obj [("current", .obj [("temperature_2m", .num 3)])])) 40) 1000
          ⟨"graz", some "alt", 0, 1, 2⟩ initState = some s2 ∧
        s2.scrapeErrors = initState.scrapeErrors ∧
        (s2.cache "graz").isSome = true ∧
        s2.gauges (Gauge.rain, "graz") = initState.gauges (Gauge.rain, "graz") :=
  C6_alt_missing_field_absent_gauge_unset 200 40 1000 ⟨"graz", some "alt", 0, 1, 2⟩
    initState [("temperature_2m", .num 3)] Gauge.rain (by decide) (by decide)
    (by decide) (by decide)

/-- C2: starting from the state NewExporter builds (empty cache), and for
any reachable shape-consistent state over targets with unique names and
fixed fetch methods, a whole Collect cycle never panics on the hit-path
type assertion (it returns a state) and re-establishes the invariant that
every cache entry's stored response shape matches its target's fetch
method. -/
theorem C2_cache_shape_invariant (cfg : List Location)
    (hnd : (cfg.map Location.Name).Nodup) :
    ShapeOk initState cfg ∧
    ∀ (o : Oracle) (now : ℤ) (s : ExporterState), ShapeOk s cfg →
      ∃ s2, Collect o now cfg s = some s2 ∧ ShapeOk s2 cfg := by
  constructor
  · intro loc _
    exact entryMatches_of_none initState loc rfl
  · intro o now s hok
    have hok2 : ShapeOk { s with totalScrapes := s.totalScrapes + 1 } cfg := by
      intro loc hmem
      rw [entryMatches_congr s { s with totalScrapes := s.totalScrapes + 1 } loc rfl]
      exact hok loc hmem
    obtain ⟨s2, h2, hok3⟩ :=
      scrape_shapeOk o now cfg { s with totalScrapes := s.totalScrapes + 1 } hnd hok2
    exact ⟨s2, h2, hok3⟩

def C2cfg : List Location := [⟨"a", none, 0, 1, 2⟩, ⟨"b", some "alt", 5, 3, 4⟩]

theorem C2_witness :
    ∃ s2, Collect (fun _ => .ok 200 (some (.obj [])) 3) 50 C2cfg initState = some s2 ∧
      ShapeOk s2 C2cfg := by
  obtain ⟨h1, h2⟩ := C2_cache_shape_invariant C2cfg (by decide)
  exact h2 (fun _ => .ok 200 (some (.obj [])) 3) 50 initState h1

/-! ## C3: a single failing target -/

def fetchFails (sh : CachedShape) (oc : FetchOutcome) : Bool := isFailed (fetchClass sh oc)

def fetchSucceeds (sh : CachedShape) (oc : FetchOutcome) : Bool :=
  match fetchClass sh oc with
  | .fetched _ _ => true
  | _ => false

theorem isFailed_spec (t : TargetOutcome) (h : isFailed t = true) : ∃ len, t = .failed len := by
  cases t <;> simp [isFailed] at h ⊢

theorem fetchSucceeds_not_failed (sh : CachedShape) (oc : FetchOutcome)
    (h : fetchSucceeds sh oc = true) : isFailed (fetchClass sh oc) = false := by
  unfold fetchSucceeds at h
  cases hf : fetchClass sh oc <;> rw [hf] at h <;> simp_all [isFailed]

theorem fetchSucceeds_spec (sh : CachedShape) (oc : FetchOutcome)
    (h : fetchSucceeds sh oc = true) : ∃ r len, fetchClass sh oc = .fetched r len := by
  unfold fetchSucceeds at h
  cases hf : fetchClass sh oc <;> rw [hf] at h <;> simp_all

theorem hasFreshEntry_congr (s s2 : ExporterState) (now : ℤ) (loc : Location)
    (h : s2.cache loc.Name = s.cache loc.Name) :
    hasFreshEntry s2 now loc = hasFreshEntry s now loc := by
  unfold hasFreshEntry
  rw [h]

theorem projOf_eq (t : TargetOutcome) (resp : CachedResponse) (g : Gauge)
    (h : respOf t = some resp) : projOf t g = projGauge resp g := by
  unfold projOf
  rw [h]

/-- C3: in a collect cycle where exactly one target's fetch fails (network
error or decode error) and every other target either has a fresh cache
entry or a successfully decoding fetch, the scrape-error counter grows by
exactly 1, the total-scrapes counter grows by exactly 1 for the whole
cycle, the failing target's gauges are untouched, and every other target's
gauges are updated normally from its (cached or freshly decoded)
response. -/
theorem C3_single_failure_isolated (o : Oracle) (now : ℤ) (pre post : List Location)
    (fl : Location) (s : ExporterState) (shf : CachedShape)
    (hnd : ((pre ++ fl :: post).map Location.Name).Nodup)
    (hok : ShapeOk s (pre ++ fl :: post))
    (hshf : fetchShape fl = some shf)
    (hfrf : hasFreshEntry s now fl = false)
    (hfail : fetchFails shf (o fl) = true)
    (hothers : ∀ loc ∈ pre ++ post, ∃ sh, fetchShape loc = some sh ∧
      (hasFreshEntry s now loc = true ∨ fetchSucceeds sh (o loc) = true)) :
    ∃ s2, Collect o now (pre ++ fl :: post) s = some s2 ∧
      s2.scrapeErrors = s.scrapeErrors + 1 ∧
      s2.totalScrapes = s.totalScrapes + 1 ∧
      (∀ g, s2.gauges (g, fl.Name) = s.gauges (g, fl.Name)) ∧
      ∀ loc ∈ pre ++ post, ∃ resp, respOf (classify (o loc) now s loc) = some resp ∧
        ∀ g, s2.gauges (g, loc.Name) = overlay (projGauge resp g) (s.gauges (g, loc.Name)) := by
  have hok2 : ShapeOk { s with totalScrapes := s.totalScrapes + 1 } (pre ++ fl :: post) := by
    intro loc hmem
    rw [entryMatches_congr s { s with totalScrapes := s.totalScrapes + 1 } loc rfl]
    exact hok loc hmem
  obtain ⟨s2, hsc, _⟩ :=
    scrape_shapeOk o now (pre ++ fl :: post) { s with totalScrapes := s.totalScrapes + 1 }
      hnd hok2
  have hclc : ∀ loc, classify (o loc) now { s with totalScrapes := s.totalScrapes + 1 } loc =
      classify (o loc) now s loc :=
    fun loc => classify_congr (o loc) now s _ loc rfl
  have hclf : classify (o fl) now s fl = fetchClass shf (o fl) :=
    classify_of_noFresh (o fl) now s fl shf hshf hfrf
  have hnotfailed : ∀ loc ∈ pre ++ post,
      isFailed (classify (o loc) now s loc) = false := by
    intro loc hmem
    obtain ⟨sh, hsh, hcase⟩ := hothers loc hmem
    by_cases hfr : hasFreshEntry s now loc = true
    · obtain ⟨e, he, hf⟩ := hasFreshEntry_true_spec s now loc hfr
      rw [classify_of_fresh (o loc) now s loc sh e hsh he hf]
      rfl
    · rcases hcase with hcase | hcase
      · exact absurd hcase hfr
      · rw [classify_of_noFresh (o loc) now s loc sh hsh
          (Bool.eq_false_iff.mpr hfr)]
        exact fetchSucceeds_not_failed sh (o loc) hcase
  have hmemfl : fl ∈ pre ++ fl :: post :=
    List.mem_append_right pre (List.mem_cons_self fl post)
  refine ⟨s2, hsc, ?_, ?_, ?_, ?_⟩
  · have herr := scrape_scrapeErrors o now (pre ++ fl :: post) _ s2 hnd hsc
    have hcnt : ((pre ++ fl :: post).countP fun loc =>
        isFailed (classify (o loc) now
          { s with totalScrapes := s.totalScrapes + 1 } loc)) = 1 := by
      have hzero_pre : (pre.countP fun loc =>
          isFailed (classify (o loc) now
            { s with totalScrapes := s.totalScrapes + 1 } loc)) = 0 := by
        rw [List.countP_eq_zero]
        intro loc hmem
        rw [hclc loc]
        simp [hnotfailed loc (List.mem_append_left post hmem)]
      have hzero_post : (post.countP fun loc =>
          isFailed (classify (o loc) now
            { s with totalScrapes := s.totalScrapes + 1 } loc)) = 0 := by
        rw [List.countP_eq_zero]
        intro loc hmem
        rw [hclc loc]
        simp [hnotfailed loc (List.mem_append_right pre hmem)]
      have hone : isFailed (classify (o fl) now
          { s with totalScrapes := s.totalScrapes + 1 } fl) = true := by
        rw [hclc fl, hclf]
        exact hfail
      rw [List.countP_append, List.countP_cons, hzero_pre, hzero_post]
      simp [hone]
    rw [herr, hcnt]
  · have := scrape_totalScrapes o now (pre ++ fl :: post) _ s2 hsc
    rw [this]
  · intro g
    obtain ⟨_, _, _, hg⟩ :=
      scrape_perTarget o now (pre ++ fl :: post) _ s2 hnd hsc fl hmemfl
    obtain ⟨len, hlen⟩ := isFailed_spec
      (classify (o fl) now { s with totalScrapes := s.totalScrapes + 1 } fl)
      (by rw [hclc fl, hclf]; exact hfail)
    rw [hg g, hlen]
    rfl
  · intro loc hmem
    have hmem2 : loc ∈ pre ++ fl :: post := by
      rcases List.mem_append.mp hmem with h | h
      · exact List.mem_append_left _ h
      · exact List.mem_append_right _ (List.mem_cons_of_mem fl h)
    obtain ⟨_, _, _, hg⟩ :=
      scrape_perTarget o now (pre ++ fl :: post) _ s2 hnd hsc loc hmem2
    obtain ⟨sh, hsh, hcase⟩ := hothers loc hmem
    have hresp : ∃ resp, respOf (classify (o loc) now s loc) = some resp := by
      by_cases hfr : hasFreshEntry s now loc = true
      · obtain ⟨e, he, hf⟩ := hasFreshEntry_true_spec s now loc hfr
        rw [classify_of_fresh (o loc) now s loc sh e hsh he hf]
        exact ⟨e.Response, rfl⟩
      · rcases hcase with hcase | hcase
        · exact absurd hcase hfr
        · obtain ⟨r, len, hr⟩ := fetchSucceeds_spec sh (o loc) hcase
          rw [classify_of_noFresh (o loc) now s loc sh hsh (Bool.eq_false_iff.mpr hfr), hr]
          exact ⟨r, rfl⟩
    obtain ⟨resp, hresp⟩ := hresp
    refine ⟨resp, hresp, ?_⟩
    intro g
    rw [hg g, hclc loc, projOf_eq _ resp g hresp]

def preC3 : List Location := [⟨"graz", none, 0, 1, 2⟩]

def flC3 : Location := ⟨"f", none, 0, 3, 4⟩

def postC3 : List Location := [⟨"linz", none, 0, 5, 6⟩]

def oC3 : Oracle := fun loc =>
  if loc.Name = "f" then .transportError else .ok 200 (some (.obj [])) 3

theorem C3_witness :
    ∃ s2, Collect oC3 77 (preC3 ++ flC3 :: postC3) initState = some s2 ∧
      s2.scrapeErrors = initState.scrapeErrors + 1 ∧
      s2.totalScrapes = initState.totalScrapes + 1 ∧
      ∀ g, s2.gauges (g, flC3.Name) = initState.gauges (g, flC3.Name) := by
  obtain ⟨s2, h1, h2, h3, h4, _⟩ := C3_single_failure_isolated oC3 77 preC3 postC3 flC3
    initState .shapeDefault (by decide) (by unfold ShapeOk; decide) (by decide) (by decide)
    (by decide)
    (by
      intro loc hmem
      refine ⟨.shapeDefault, ?_, Or.inr ?_⟩ <;>
        · simp only [preC3, postC3, List.mem_append, List.mem_singleton] at hmem
          rcases hmem with rfl | rfl <;> decide)
  exact ⟨s2, h1, h2, h3, h4⟩

/-! ## C7: idempotence of consecutive collects under fresh cache -/

/-- The state's gauges at name `n` already absorb the projection of
`resp`: re-projecting it changes nothing. -/
def Absorbed (s : ExporterState) (n : String) (resp : CachedResponse) : Prop :=
  ∀ g, overlay (projGauge resp g) (s.gauges (g, n)) = s.gauges (g, n)

/-- After a scrape pass, every target with a valid method whose entry is
still fresh at a later time `t2` holds a cache entry whose projection the
gauges have absorbed. -/
theorem absorbed_after (o : Oracle) (t1 t2 : ℤ) (cfg : List Location)
    (s s2 : ExporterState) (hnd : (cfg.map Location.Name).Nodup)
    (hsc : scrape o t1 cfg s = some s2) (ht : t1 ≤ t2) (loc : Location) (hmem : loc ∈ cfg)
    (sh : CachedShape) (hsh : fetchShape loc = some sh)
    (hfr : hasFreshEntry s2 t2 loc = true) :
    ∃ e, s2.cache loc.Name = some e ∧ Absorbed s2 loc.Name e.Response := by
  obtain ⟨hhit, hnet, hcac, hg⟩ := scrape_perTarget o t1 cfg s s2 hnd hsc loc hmem
  cases hcl : classify (o loc) t1 s loc with
  | skipped => exact absurd hcl (classify_ne_skipped (o loc) t1 s loc sh hsh)
  | hit e =>
      rw [hcl] at hcac hg
      obtain ⟨he, _⟩ := classify_hit_spec (o loc) t1 s loc e sh hsh hcl
      refine ⟨e, ?_, ?_⟩
      · rw [hcac]
        exact he
      · intro g
        have hpr : projOf (.hit e) g = projGauge e.Response g := rfl
        rw [hg g, hpr]
        exact overlay_idem _ _
  | fetched r len =>
      rw [hcl] at hcac hg
      refine ⟨⟨r, t1⟩, ?_, ?_⟩
      · rw [hcac]
        rfl
      · intro g
        have hpr : projOf (.fetched r len) g = projGauge r g := rfl
        rw [hg g, hpr]
        exact overlay_idem _ _
  | failed len =>
      exfalso
      rw [hcl] at hcac
      have hnotfr : hasFreshEntry s t1 loc = false :=
        classify_failed_not_fresh (o loc) t1 s loc len hcl
      have hceq : s2.cache loc.Name = s.cache loc.Name := by
        rw [hcac]
        rfl
      obtain ⟨e, he2, hf2⟩ := hasFreshEntry_true_spec s2 t2 loc hfr
      rw [hceq] at he2
      have hstale := hasFreshEntry_false_spec s t1 loc hnotfr e he2
      omega

/-- C7: two consecutive collects where, between them, every valid-method
target's cache entry is still fresh, produce identical gauge values (and
cache, error counter, traffic counter and network activity), and differ
only in the total-scrapes counter (+1) and the cache-hit counter of each
valid-method target (+1). -/
theorem C7_consecutive_collects_idempotent (o1 o2 : Oracle) (t1 t2 : ℤ)
    (cfg : List Location) (s0 s1 : ExporterState)
    (hnd : (cfg.map Location.Name).Nodup)
    (hok : ShapeOk s0 cfg)
    (ht : t1 ≤ t2)
    (h1 : Collect o1 t1 cfg s0 = some s1)
    (hfresh : ∀ loc ∈ cfg, ∀ sh, fetchShape loc = some sh →
      hasFreshEntry s1 t2 loc = true) :
    ∃ s2, Collect o2 t2 cfg s1 = some s2 ∧
      s2.gauges = s1.gauges ∧
      s2.cache = s1.cache ∧
      s2.totalScrapes = s1.totalScrapes + 1 ∧
      s2.scrapeErrors = s1.scrapeErrors ∧
      s2.httpTraffic = s1.httpTraffic ∧
      s2.netRequests = s1.netRequests ∧
      (∀ loc ∈ cfg, (fetchShape loc).isSome →
        s2.cacheHit loc.Name = s1.cacheHit loc.Name + 1) ∧
      ∀ n, (∀ loc ∈ cfg, loc.Name = n → fetchShape loc = none) →
        s2.cacheHit n = s1.cacheHit n := by
  have h1' : scrape o1 t1 cfg { s0 with totalScrapes := s0.totalScrapes + 1 } = some s1 := h1
  have habs : ∀ loc ∈ cfg, ∀ sh, fetchShape loc = some sh →
      ∃ e, s1.cache loc.Name = some e ∧ Absorbed s1 loc.Name e.Response := by
    intro loc hmem sh hsh
    exact absorbed_after o1 t1 t2 cfg _ s1 hnd h1' ht loc hmem sh hsh
      (hfresh loc hmem sh hsh)
  have hok0 : ShapeOk { s0 with totalScrapes := s0.totalScrapes + 1 } cfg := by
    intro loc hmem
    rw [entryMatches_congr s0 { s0 with totalScrapes := s0.totalScrapes + 1 } loc rfl]
    exact hok loc hmem
  obtain ⟨s1x, hs1x, hok1x⟩ := scrape_shapeOk o1 t1 cfg _ hnd hok0
  have hs1xeq : s1x = s1 := Option.some.inj (hs1x.symm.trans h1')
  subst hs1xeq
  have hok1b : ShapeOk { s1x with totalScrapes := s1x.totalScrapes + 1 } cfg := by
    intro loc hmem
    rw [entryMatches_congr s1x { s1x with totalScrapes := s1x.totalScrapes + 1 } loc rfl]
    exact hok1x loc hmem
  obtain ⟨s2, hs2, _⟩ :=
    scrape_shapeOk o2 t2 cfg { s1x with totalScrapes := s1x.totalScrapes + 1 } hnd hok1b
  have hclass : ∀ loc ∈ cfg, ∀ sh, fetchShape loc = some sh →
      ∃ e, s1x.cache loc.Name = some e ∧
        classify (o2 loc) t2 { s1x with totalScrapes := s1x.totalScrapes + 1 } loc =
          .hit e ∧
        Absorbed s1x loc.Name e.Response := by
    intro loc hmem sh hsh
    obtain ⟨e, he, habse⟩ := habs loc hmem sh hsh
    obtain ⟨e2, he2, hf2⟩ := hasFreshEntry_true_spec s1x t2 loc (hfresh loc hmem sh hsh)
    rw [he] at he2
    have he2' : e2 = e := Option.some.inj he2.symm
    subst he2'
    exact ⟨e2, he, classify_of_fresh (o2 loc) t2 _ loc sh e2 hsh he hf2, habse⟩
  have hcl_none : ∀ loc ∈ cfg, fetchShape loc = none →
      classify (o2 loc) t2 { s1x with totalScrapes := s1x.totalScrapes + 1 } loc =
        .skipped := by
    intro loc _ hsh
    exact classify_none (o2 loc) t2 _ loc hsh
  refine ⟨s2, hs2, ?_, ?_, ?_, ?_, ?_, ?_, ?_, ?_⟩
  · -- gauges identical
    funext p
    obtain ⟨g, n⟩ := p
    by_cases hn : n ∈ cfg.map Location.Name
    · obtain ⟨loc, hmemloc, hname⟩ := List.mem_map.mp hn
      subst hname
      obtain ⟨_, _, _, hg⟩ := scrape_perTarget o2 t2 cfg _ s2 hnd hs2 loc hmemloc
      cases hsh : fetchShape loc with
      | none =>
          rw [hg g, hcl_none loc hmemloc hsh]
          rfl
      | some sh =>
          obtain ⟨e, _, hcl, habse⟩ := hclass loc hmemloc sh hsh
          rw [hg g, hcl]
          have hpr : projOf (.hit e) g = projGauge e.Response g := rfl
          rw [hpr]
          exact habse g
    · obtain ⟨_, _, _, hg⟩ := scrape_frame o2 t2 cfg _ s2 hs2 n hn
      exact hg g
  · -- cache identical
    funext n
    by_cases hn : n ∈ cfg.map Location.Name
    · obtain ⟨loc, hmemloc, hname⟩ := List.mem_map.mp hn
      subst hname
      obtain ⟨_, _, hcac, _⟩ := scrape_perTarget o2 t2 cfg _ s2 hnd hs2 loc hmemloc
      cases hsh : fetchShape loc with
      | none =>
          rw [hcac, hcl_none loc hmemloc hsh]
          rfl
      | some sh =>
          obtain ⟨e, _, hcl, _⟩ := hclass loc hmemloc sh hsh
          rw [hcac, hcl]
          rfl
    · obtain ⟨hc, _, _, _⟩ := scrape_frame o2 t2 cfg _ s2 hs2 n hn
      exact hc
  · -- total scrapes + 1
    rw [scrape_totalScrapes o2 t2 cfg _ s2 hs2]
  · -- scrape errors unchanged
    rw [scrape_scrapeErrors o2 t2 cfg _ s2 hnd hs2]
    have hcnt : (cfg.countP fun loc =>
        isFailed (classify (o2 loc) t2
          { s1x with totalScrapes := s1x.totalScrapes + 1 } loc)) = 0 := by
      rw [List.countP_eq_zero]
      intro loc hmem
      cases hsh : fetchShape loc with
      | none => simp [hcl_none loc hmem hsh, isFailed]
      | some sh =>
          obtain ⟨e, _, hcl, _⟩ := hclass loc hmem sh hsh
          simp [hcl, isFailed]
    rw [hcnt]
    rfl
  · -- traffic unchanged
    rw [scrape_httpTraffic o2 t2 cfg _ s2 hnd hs2]
    have hsum : ((cfg.map fun loc =>
        trafficOf (classify (o2 loc) t2
          { s1x with totalScrapes := s1x.totalScrapes + 1 } loc)).sum) = 0 := by
      apply List.sum_eq_zero
      intro x hx
      obtain ⟨loc, hmemloc, hxeq⟩ := List.mem_map.mp hx
      rw [← hxeq]
      cases hsh : fetchShape loc with
      | none => rw [hcl_none loc hmemloc hsh]; rfl
      | some sh =>
          obtain ⟨e, _, hcl, _⟩ := hclass loc hmemloc sh hsh
          rw [hcl]
          rfl
    rw [hsum]
    rfl
  · -- network requests unchanged
    funext n
    by_cases hn : n ∈ cfg.map Location.Name
    · obtain ⟨loc, hmemloc, hname⟩ := List.mem_map.mp hn
      subst hname
      obtain ⟨_, hnet, _, _⟩ := scrape_perTarget o2 t2 cfg _ s2 hnd hs2 loc hmemloc
      cases hsh : fetchShape loc with
      | none =>
          rw [hnet, hcl_none loc hmemloc hsh]
          rfl
      | some sh =>
          obtain ⟨e, _, hcl, _⟩ := hclass loc hmemloc sh hsh
          rw [hnet, hcl]
          rfl
    · obtain ⟨_, _, hnet, _⟩ := scrape_frame o2 t2 cfg _ s2 hs2 n hn
      exact hnet
  · -- per-target cache-hit counter + 1 for valid methods
    intro loc hmem hvalid
    obtain ⟨sh, hsh⟩ := Option.isSome_iff_exists.mp hvalid
    obtain ⟨e, _, hcl, _⟩ := hclass loc hmem sh hsh
    obtain ⟨hhit, _, _, _⟩ := scrape_perTarget o2 t2 cfg _ s2 hnd hs2 loc hmem
    rw [hhit, hcl]
    rfl
  · -- cache-hit counter unchanged elsewhere
    intro n hinv
    by_cases hn : n ∈ cfg.map Location.Name
    · obtain ⟨loc, hmemloc, hname⟩ := List.mem_map.mp hn
      subst hname
      obtain ⟨hhit, _, _, _⟩ := scrape_perTarget o2 t2 cfg _ s2 hnd hs2 loc hmemloc
      rw [hhit, hcl_none loc hmemloc (hinv loc hmemloc rfl)]
      rfl
    · obtain ⟨_, hhit, _, _⟩ := scrape_frame o2 t2 cfg _ s2 hs2 n hn
      exact hhit

def C7loc : Location := ⟨"home", none, 0, 1, 2⟩

def C7resp : Response := ⟨1, 2, ⟨7, 3, 90⟩⟩

def C7s0 : ExporterState :=
  { initState with
    cache := Function.update initState.cache "home" (some ⟨.defaultResp C7resp, 100⟩) }

def C7s1 : ExporterState :=
  setDefaultGauges (bumpHit { C7s0 with totalScrapes := C7s0.totalScrapes + 1 } "home")
    "home" C7resp

def C7o : Oracle := fun _ => .ok 200 (some (.obj [])) 3

theorem C7_witness :
    ∃ s2, Collect C7o 500 [C7loc] C7s1 = some s2 ∧
      s2.gauges = C7s1.gauges ∧
      s2.totalScrapes = C7s1.totalScrapes + 1 ∧
      s2.scrapeErrors = C7s1.scrapeErrors ∧
      s2.httpTraffic = C7s1.httpTraffic := by
  have h1 : Collect C7o 400 [C7loc] C7s0 = some C7s1 := rfl
  obtain ⟨s2, ha, hb, _, hc, hd, he, _, _⟩ :=
    C7_consecutive_collects_idempotent C7o C7o 400 500 [C7loc] C7s0 C7s1
      (by decide) (by unfold ShapeOk; decide) (by decide) h1
      (by
        intro loc hmem sh hsh
        simp only [List.mem_singleton] at hmem
        subst hmem
        decide)
  exact ⟨s2, ha, hb, hc, hd, he⟩

end OpenMeteo
